import Mathlib

/-!
# Reflection helpers of `internal/reflection/reflection.go`

A shallow embedding of the three functions of the package (`OriginValueAndKind`,
`OriginTypeAndKind`, `ValueToInterface`) over a model of the part of Go's
`reflect` package they call, followed by theorems about them.

The model of `reflect` keeps what the three functions observe of a handle: the
value it wraps (with its runtime type), and the read-only flag that decides
`CanInterface`.  Every `reflect` operation that panics outside its precondition
is a partial operation here: it yields `Outcome.fault` there.  Loops and the
recursion of the source run on fuel: the fuel bounds the number of loop
iterations (of recursive calls), and `Outcome.timeout` says it ran out.
-/

namespace Reflection

/-! ## Outcomes of a call -/

/-- The outcome of running a piece of the program: it returns a result, it
panics, or the fuel given to it is used up before it returns. -/
inductive Outcome (α : Type) where
  | ok (a : α)
  | fault
  | timeout
  deriving DecidableEq, Repr

/-- Sequencing of outcomes: a panic or a timeout of the first part is the outcome
of the whole. -/
def Outcome.bind {α β : Type} (o : Outcome α) (f : α → Outcome β) : Outcome β :=
  match o with
  | .ok a => f a
  | .fault => .fault
  | .timeout => .timeout

/-! ## Kinds and runtime types -/

/-- The enumeration `reflect.Kind`, in the order of the Go declaration;
`Invalid` is its zero value. -/
inductive Kind where
  | Invalid | Bool
  | Int | Int8 | Int16 | Int32 | Int64
  | Uint | Uint8 | Uint16 | Uint32 | Uint64 | Uintptr
  | Float32 | Float64 | Complex64 | Complex128
  | Array | Chan | Func | Interface | Map | Ptr | Slice | String | Struct
  | UnsafePointer
  deriving DecidableEq, Repr

/-- The name of a runtime type.  The six predeclared types in which the decoders
of `reflect.Value` return their result and the struct type `reflect.Value` are
named outright; every other type is named by its index in the type table of the
program. -/
inductive TypeId where
  | bool | int64 | uint64 | float64 | complex128 | string
  | reflectValue
  | defined (n : Nat)
  deriving DecidableEq, Repr

/-- A runtime type descriptor, as far as `reflect.Type` shows it here: the kind
of the type and its element type.  `Elem` is read only for the kinds that have
an element type (`Array`, `Chan`, `Map`, `Ptr`, `Slice`). -/
structure RType where
  Kind : Kind
  Elem : TypeId
  deriving DecidableEq, Repr

/-- The type table of a program: the descriptor of every defined type.  A type
may be its own element type (`type P *P`), so the table is a graph, not a tree. -/
abbrev TypeTable := Nat → RType

/-- The descriptor of a type name. -/
def TypeTable.lookup (U : TypeTable) : TypeId → RType
  | .bool => ⟨.Bool, .bool⟩
  | .int64 => ⟨.Int64, .int64⟩
  | .uint64 => ⟨.Uint64, .uint64⟩
  | .float64 => ⟨.Float64, .float64⟩
  | .complex128 => ⟨.Complex128, .complex128⟩
  | .string => ⟨.String, .string⟩
  | .reflectValue => ⟨.Struct, .reflectValue⟩
  | .defined n => U n

/-- `reflect.Type.Kind`: a method call on a `reflect.Type` with no descriptor
behind it (the nil interface, a nil `*rtype`) panics. -/
def TypeKind (U : TypeTable) : Option TypeId → Outcome Kind
  | none => .fault
  | some t => .ok (U.lookup t).Kind

/-- `reflect.Type.Elem`: panics on a `reflect.Type` with no descriptor behind it
and on a type whose kind is not `Array`, `Chan`, `Map`, `Ptr` or `Slice`. -/
def TypeElem (U : TypeTable) : Option TypeId → Outcome (Option TypeId)
  | none => .fault
  | some t =>
    match (U.lookup t).Kind with
    | .Array | .Chan | .Map | .Ptr | .Slice => .ok (some (U.lookup t).Elem)
    | _ => .fault

/-! ## Values -/

/-- Widths of the signed integer kinds. -/
inductive IntWidth where
  | native | w8 | w16 | w32 | w64
  deriving DecidableEq, Repr

/-- Widths of the unsigned integer kinds; `ptr` is `uintptr`. -/
inductive UintWidth where
  | native | w8 | w16 | w32 | w64 | ptr
  deriving DecidableEq, Repr

/-- Widths of the floating-point kinds. -/
inductive FloatWidth where
  | w32 | w64
  deriving DecidableEq, Repr

/-- Widths of the complex kinds. -/
inductive ComplexWidth where
  | w64 | w128
  deriving DecidableEq, Repr

/-- The kinds that `ValueToInterface` does not decode. -/
inductive OtherKind where
  | Array | Chan | Func | Map | Slice | Struct | UnsafePointer
  deriving DecidableEq, Repr

/-- A floating-point datum, named by the IEEE-754 binary64 encoding of its value.
A `float32` datum is named by the binary64 encoding of the same value (the
conversion `float64(x)` of a `float32` is exact), so the width of a float is
carried by its kind only. -/
structure FloatBits where
  bits : Nat
  deriving DecidableEq, Repr

/-- A finite, acyclic runtime value with its runtime type `t`.  Integers are
given by the number they hold; the contents of aggregates, containers, functions
and channels are not inspected by the package and are left out. -/
inductive Val where
  | bool (t : TypeId) (b : Bool)
  | int (t : TypeId) (w : IntWidth) (n : Int)
  | uint (t : TypeId) (w : UintWidth) (n : Nat)
  | float (t : TypeId) (w : FloatWidth) (f : FloatBits)
  | complex (t : TypeId) (w : ComplexWidth) (re im : FloatBits)
  | str (t : TypeId) (s : String)
  | nilPtr (t : TypeId)
  | ptr (t : TypeId) (target : Val)
  | nilIface (t : TypeId)
  | iface (t : TypeId) (dyn : Val)
  | other (t : TypeId) (k : OtherKind)
  deriving DecidableEq, Repr

/-- The kind of a signed integer width. -/
def IntWidth.Kind : IntWidth → Kind
  | .native => .Int | .w8 => .Int8 | .w16 => .Int16 | .w32 => .Int32 | .w64 => .Int64

/-- The kind of an unsigned integer width. -/
def UintWidth.Kind : UintWidth → Kind
  | .native => .Uint | .w8 => .Uint8 | .w16 => .Uint16 | .w32 => .Uint32
  | .w64 => .Uint64 | .ptr => .Uintptr

/-- The kind of a floating-point width. -/
def FloatWidth.Kind : FloatWidth → Kind
  | .w32 => .Float32 | .w64 => .Float64

/-- The kind of a complex width. -/
def ComplexWidth.Kind : ComplexWidth → Kind
  | .w64 => .Complex64 | .w128 => .Complex128

/-- The kind of an undecoded kind. -/
def OtherKind.Kind : OtherKind → Kind
  | .Array => .Array | .Chan => .Chan | .Func => .Func | .Map => .Map
  | .Slice => .Slice | .Struct => .Struct | .UnsafePointer => .UnsafePointer

/-- The kind of a value. -/
def Val.Kind : Val → Kind
  | .bool _ _ => .Bool
  | .int _ w _ => w.Kind
  | .uint _ w _ => w.Kind
  | .float _ w _ => w.Kind
  | .complex _ w _ _ => w.Kind
  | .str _ _ => .String
  | .nilPtr _ => .Ptr
  | .ptr _ _ => .Ptr
  | .nilIface _ => .Interface
  | .iface _ _ => .Interface
  | .other _ k => k.Kind

/-- The runtime type of a value. -/
def Val.typ : Val → TypeId
  | .bool t _ => t
  | .int t _ _ => t
  | .uint t _ _ => t
  | .float t _ _ => t
  | .complex t _ _ _ => t
  | .str t _ => t
  | .nilPtr t => t
  | .ptr t _ => t
  | .nilIface t => t
  | .iface t _ => t
  | .other t _ => t

/-- The handle `reflect.Value`.  `invalid` is the zero handle; a valid handle
wraps a value and carries the read-only flag `ro`, set on a handle reached
through an unexported struct field, under which `CanInterface` is false. -/
inductive Value where
  | invalid
  | valid (x : Val) (ro : Bool)
  deriving DecidableEq, Repr

/-- A dynamically typed value (`interface{}`), split the way the type assertions
of the package see it. -/
inductive Any where
  /-- The nil interface. -/
  | nil
  /-- A value of dynamic type `reflect.Value`. -/
  | handle (v : Value)
  /-- A value whose dynamic type implements `reflect.Type` and that holds a type
  descriptor: the type `t` it describes, and the value `box` (the pointer to the
  descriptor) that `reflect.ValueOf` finds in the interface. -/
  | rtype (t : TypeId) (box : Val)
  /-- A value whose dynamic type implements `reflect.Type` but that holds no type
  descriptor: a nil `*rtype` in a non-nil interface, or a struct that embeds a nil
  `reflect.Type`.  It passes the type assertion `value.(reflect.Type)` and every
  method call on it panics; `box` is the value `reflect.ValueOf` finds in the
  interface. -/
  | nilRtype (box : Val)
  /-- Any other value. -/
  | native (x : Val)
  deriving DecidableEq, Repr

/-! ## The operations of `reflect` the package calls -/

/-- `reflect.ValueOf`: the zero handle for the nil interface, else a handle of
the value found in the interface, not read-only. -/
def ValueOf : Any → Value
  | .nil => .invalid
  | .handle _ => .valid (.other .reflectValue .Struct) false
  | .rtype _ box => .valid box false
  | .nilRtype box => .valid box false
  | .native x => .valid x false

/-- `reflect.TypeOf`: the nil type for the nil interface, else the dynamic
type. -/
def TypeOf : Any → Option TypeId
  | .nil => none
  | .handle _ => some .reflectValue
  | .rtype _ box => some box.typ
  | .nilRtype box => some box.typ
  | .native x => some x.typ

/-- `reflect.Value.Kind`: total, `Invalid` on the zero handle. -/
def Value.Kind : Value → Kind
  | .invalid => .Invalid
  | .valid x _ => x.Kind

/-- `reflect.Value.IsValid`. -/
def Value.IsValid : Value → Bool
  | .invalid => false
  | .valid _ _ => true

/-- `reflect.Value.CanInterface`: panics on the zero handle; false on a
read-only handle. -/
def Value.CanInterface : Value → Outcome Bool
  | .invalid => .fault
  | .valid _ ro => .ok (!ro)

/-- `reflect.Value.Elem`: panics unless the kind is `Interface` or `Ptr`.  The
element of a nil pointer or nil interface is the zero handle; the element of
any other inherits the read-only flag. -/
def Value.Elem : Value → Outcome Value
  | .valid (.ptr _ target) ro => .ok (.valid target ro)
  | .valid (.nilPtr _) _ => .ok .invalid
  | .valid (.iface _ dyn) ro => .ok (.valid dyn ro)
  | .valid (.nilIface _) _ => .ok .invalid
  | _ => .fault

/-- `reflect.Value.Type`: panics on the zero handle. -/
def Value.Type : Value → Outcome TypeId
  | .invalid => .fault
  | .valid x _ => .ok x.typ

/-- `reflect.Value.Interface`: panics on the zero handle and on a read-only
handle.  A handle of kind `Interface` gives the content of the interface (nil,
or its dynamic value); any other handle gives its value under its own type. -/
def Value.Interface : Value → Outcome Any
  | .invalid => .fault
  | .valid x ro =>
    if ro then .fault
    else
      match x with
      | .nilIface _ => .ok .nil
      | .iface _ dyn => .ok (.native dyn)
      | _ => .ok (.native x)

/-- The conversion `int64(n)` of an integer: two's complement on 64 bits. -/
def toInt64 (n : Int) : Int :=
  (n + 2 ^ 63) % 2 ^ 64 - 2 ^ 63

/-- The conversion `uint64(n)` of a natural number. -/
def toUint64 (n : Nat) : Nat :=
  n % 2 ^ 64

/-- `reflect.Value.Bool`: panics unless the kind is `Bool`. -/
def Value.Bool : Value → Outcome Bool
  | .valid (.bool _ b) _ => .ok b
  | _ => .fault

/-- `reflect.Value.Int`: the integer held, converted to `int64`; panics unless
the kind is a signed integer kind. -/
def Value.Int : Value → Outcome Int
  | .valid (.int _ _ n) _ => .ok (toInt64 n)
  | _ => .fault

/-- `reflect.Value.Uint`: the integer held, converted to `uint64`; panics unless
the kind is an unsigned integer kind. -/
def Value.Uint : Value → Outcome Nat
  | .valid (.uint _ _ n) _ => .ok (toUint64 n)
  | _ => .fault

/-- `reflect.Value.Float`: the float held, as a `float64`; panics unless the
kind is a floating-point kind. -/
def Value.Float : Value → Outcome FloatBits
  | .valid (.float _ _ f) _ => .ok f
  | _ => .fault

/-- `reflect.Value.Complex`: the complex number held, as a `complex128`; panics
unless the kind is a complex kind. -/
def Value.Complex : Value → Outcome (FloatBits × FloatBits)
  | .valid (.complex _ _ re im) _ => .ok (re, im)
  | _ => .fault

/-- `reflect.Value.String` on a handle of kind `String`.  On any other handle Go
returns a description of the handle instead of panicking; the package never
relies on that, and the model counts such a call as a fault, so that a fault-free
run also shows that `String` was called on string handles only. -/
def Value.String : Value → Outcome String
  | .valid (.str _ s) _ => .ok s
  | _ => .fault

/-! ## `OriginValueAndKind` -/

/-- The struct `OriginValueAndKindOutput`. -/
structure OriginValueAndKindOutput where
  InputValue : Value
  InputKind : Kind
  OriginValue : Value
  OriginKind : Kind
  deriving DecidableEq, Repr

/-- The loop `for out.OriginKind == reflect.Ptr` of `OriginValueAndKind`, on the
struct `out`; `fuel` bounds the number of iterations. -/
def originValueLoop : Nat → OriginValueAndKindOutput → Outcome OriginValueAndKindOutput
  | fuel, out =>
    if out.OriginKind = Kind.Ptr then
      match fuel with
      | 0 => .timeout
      | fuel + 1 =>
        out.OriginValue.Elem.bind fun e =>
          originValueLoop fuel { out with OriginValue := e, OriginKind := e.Kind }
    else .ok out

/-- The handle that `OriginValueAndKind` records as `InputValue`: the input
itself when it is a handle, `reflect.ValueOf` of it otherwise. -/
def inputValue (value : Any) : Value :=
  match value with
  | .handle v => v
  | _ => ValueOf value

/-- The function `OriginValueAndKind`; `fuel` bounds the iterations of its
loop. -/
def OriginValueAndKind (fuel : Nat) (value : Any) : Outcome OriginValueAndKindOutput :=
  originValueLoop fuel
    { InputValue := inputValue value, InputKind := (inputValue value).Kind,
      OriginValue := inputValue value, OriginKind := (inputValue value).Kind }

/-! ## `OriginTypeAndKind` -/

/-- The struct `OriginTypeAndKindOutput`; `none` is a `reflect.Type` with no
descriptor behind it, the nil `reflect.Type` of the zero struct first of all. -/
structure OriginTypeAndKindOutput where
  InputType : Option TypeId
  InputKind : Kind
  OriginType : Option TypeId
  OriginKind : Kind
  deriving DecidableEq, Repr

/-- The zero value of `OriginTypeAndKindOutput`. -/
def OriginTypeAndKindOutput.zero : OriginTypeAndKindOutput :=
  { InputType := none, InputKind := .Invalid, OriginType := none, OriginKind := .Invalid }

/-- The loop `for out.OriginKind == reflect.Ptr` of `OriginTypeAndKind`, on the
struct `out`; `fuel` bounds the number of iterations. -/
def originTypeLoop (U : TypeTable) :
    Nat → OriginTypeAndKindOutput → Outcome OriginTypeAndKindOutput
  | fuel, out =>
    if out.OriginKind = Kind.Ptr then
      match fuel with
      | 0 => .timeout
      | fuel + 1 =>
        (TypeElem U out.OriginType).bind fun e =>
          (TypeKind U e).bind fun k =>
            originTypeLoop U fuel { out with OriginType := e, OriginKind := k }
    else .ok out

/-- The type that `OriginTypeAndKind` records as `InputType` for an input that
is not nil: the input itself when it passes the assertion `value.(reflect.Type)`
(with or without a descriptor behind it), `Type()` of a handle, `reflect.TypeOf`
of any other value. -/
def inputType (value : Any) : Outcome (Option TypeId) :=
  match value with
  | .rtype t _ => .ok (some t)
  | .nilRtype _ => .ok none
  | .handle v => v.Type.bind fun t => .ok (some t)
  | _ => .ok (TypeOf value)

/-- The function `OriginTypeAndKind` over the type table `U`; `fuel` bounds the
iterations of its loop. -/
def OriginTypeAndKind (U : TypeTable) (fuel : Nat) (value : Any) :
    Outcome OriginTypeAndKindOutput :=
  match value with
  | .nil => .ok OriginTypeAndKindOutput.zero
  | _ =>
    (inputType value).bind fun ty =>
      (TypeKind U ty).bind fun k =>
        originTypeLoop U fuel
          { InputType := ty, InputKind := k, OriginType := ty, OriginKind := k }

/-! ## `ValueToInterface` -/

/-- The function `ValueToInterface`; `fuel` bounds the number of recursive
calls.  A result of a decoder is the value under the predeclared type the decoder
returns. -/
def ValueToInterface : Nat → Value → Outcome (Any × Bool)
  | fuel, v =>
    (if v.IsValid then v.CanInterface else .ok false).bind fun generic =>
      if generic then
        v.Interface.bind fun i => .ok (i, true)
      else
        match v.Kind with
        | .Bool => v.Bool.bind fun b => .ok (.native (.bool .bool b), true)
        | .Int | .Int8 | .Int16 | .Int32 | .Int64 =>
          v.Int.bind fun n => .ok (.native (.int .int64 .w64 n), true)
        | .Uint | .Uint8 | .Uint16 | .Uint32 | .Uint64 | .Uintptr =>
          v.Uint.bind fun n => .ok (.native (.uint .uint64 .w64 n), true)
        | .Float32 | .Float64 =>
          v.Float.bind fun f => .ok (.native (.float .float64 .w64 f), true)
        | .Complex64 | .Complex128 =>
          v.Complex.bind fun c => .ok (.native (.complex .complex128 .w128 c.1 c.2), true)
        | .String => v.String.bind fun s => .ok (.native (.str .string s), true)
        | .Ptr =>
          match fuel with
          | 0 => .timeout
          | fuel + 1 => v.Elem.bind fun e => ValueToInterface fuel e
        | .Interface =>
          match fuel with
          | 0 => .timeout
          | fuel + 1 => v.Elem.bind fun e => ValueToInterface fuel e
        | _ => .ok (.nil, false)

/-! ## Auxiliary definitions for the statements -/

/-- The value `b` under pointer layers of the types `ts`, outermost first, none
of them nil. -/
def Val.wrapPtrs : List TypeId → Val → Val
  | [], b => b
  | t :: ts, b => .ptr t (Val.wrapPtrs ts b)

/-- The number of iterations the loop of `OriginValueAndKind` makes from a value:
one for each pointer on the chain, a nil pointer at its end included. -/
def Val.ptrDepth : Val → Nat
  | .ptr _ target => target.ptrDepth + 1
  | .nilPtr _ => 1
  | _ => 0

/-- The number of iterations the loop of `OriginValueAndKind` makes from a
handle. -/
def Value.ptrDepth : Value → Nat
  | .invalid => 0
  | .valid x _ => x.ptrDepth

/-- The number of pointer and interface layers on the chain from a value, a nil
pointer or nil interface at its end included. -/
def Val.unwrapDepth : Val → Nat
  | .ptr _ target => target.unwrapDepth + 1
  | .iface _ dyn => dyn.unwrapDepth + 1
  | .nilPtr _ => 1
  | .nilIface _ => 1
  | _ => 0

/-- The number of pointer and interface layers on the chain from a handle. -/
def Value.unwrapDepth : Value → Nat
  | .invalid => 0
  | .valid x _ => x.unwrapDepth

/-- Whether the pointer chain of the type `t` leaves the pointer kind within `n`
dereferences. -/
def TypeTable.leavesPtr (U : TypeTable) : Nat → TypeId → Bool
  | 0, t => decide ((U.lookup t).Kind ≠ Kind.Ptr)
  | n + 1, t =>
    decide ((U.lookup t).Kind ≠ Kind.Ptr) || TypeTable.leavesPtr U n (U.lookup t).Elem

/-- A type table with the self-referential pointer type `type P *P` at index 0,
the pointer type `*rtype` at index 1, and struct types elsewhere. -/
def selfPtrTable : TypeTable := fun n =>
  if n = 0 then ⟨.Ptr, .defined 0⟩
  else if n = 1 then ⟨.Ptr, .defined 2⟩
  else ⟨.Struct, .defined n⟩

/-- The descriptor of `type P *P` as a `reflect.Type` in an interface. -/
def selfPtrType : Any :=
  .rtype (.defined 0) (.ptr (.defined 1) (.other (.defined 2) .Struct))

/-- The table with the type `*T` at index 0 and the struct type `T` elsewhere. -/
def ptrStructTable : TypeTable := fun n =>
  if n = 0 then ⟨.Ptr, .defined 1⟩ else ⟨.Struct, .defined n⟩

/-- The number of bits of a signed integer width, where `int` has `ws` bits. -/
def IntWidth.bits (ws : Nat) : IntWidth → Nat
  | .native => ws | .w8 => 8 | .w16 => 16 | .w32 => 32 | .w64 => 64

/-- The number of bits of an unsigned integer width, where `uint` and `uintptr`
have `ws` bits. -/
def UintWidth.bits (ws : Nat) : UintWidth → Nat
  | .native => ws | .w8 => 8 | .w16 => 16 | .w32 => 32 | .w64 => 64 | .ptr => ws

/-- Whether the number an integer value holds is one of its width: every value
of the running program is so. -/
def Val.inRange (ws : Nat) : Val → Bool
  | .int _ w n => decide (-(2 ^ (w.bits ws - 1) : Int) ≤ n ∧ n < 2 ^ (w.bits ws - 1))
  | .uint _ w n => decide (n < 2 ^ w.bits ws)
  | _ => true

/-- A scalar in the widest representation of its category: `bool`, `int64`,
`uint64`, `float64`, `complex128`, `string`. -/
inductive Scalar where
  | bool (b : Bool)
  | int (n : Int)
  | uint (n : Nat)
  | float (f : FloatBits)
  | complex (re im : FloatBits)
  | str (s : String)
  deriving DecidableEq, Repr

/-- The source value of a value of a scalar kind: what it holds. -/
def Val.source : Val → Option Scalar
  | .bool _ b => some (.bool b)
  | .int _ _ n => some (.int n)
  | .uint _ _ n => some (.uint n)
  | .float _ _ f => some (.float f)
  | .complex _ _ re im => some (.complex re im)
  | .str _ s => some (.str s)
  | _ => none

/-- Normalisation of a value of a scalar kind to the widest representation of
its category, by the conversions `int64(x)`, `uint64(x)`, `float64(x)`,
`complex128(x)`. -/
def Val.normalise : Val → Option Scalar
  | .bool _ b => some (.bool b)
  | .int _ _ n => some (.int (toInt64 n))
  | .uint _ _ n => some (.uint (toUint64 n))
  | .float _ _ f => some (.float f)
  | .complex _ _ re im => some (.complex re im)
  | .str _ s => some (.str s)
  | _ => none

/-- Normalisation of the scalar in an interface. -/
def Any.normalise : Any → Option Scalar
  | .native x => x.normalise
  | _ => none

/-- Whether a kind is one of the six scalar categories that `ValueToInterface`
decodes: boolean, signed integer, unsigned integer, floating point, complex,
string. -/
def isScalarKind : Kind → Bool
  | .Bool => true
  | .Int | .Int8 | .Int16 | .Int32 | .Int64 => true
  | .Uint | .Uint8 | .Uint16 | .Uint32 | .Uint64 | .Uintptr => true
  | .Float32 | .Float64 => true
  | .Complex64 | .Complex128 => true
  | .String => true
  | _ => false

/-- Whether a handle is valid and permits generic conversion: the first test of
`ValueToInterface`. -/
def convertible (v : Value) : Bool :=
  v.IsValid && decide (v.CanInterface = .ok true)

/-- The handles on the unwrap chain from a handle, over at most `n` steps: the
handle itself, then, as long as the kind is `Ptr` or `Interface`, the chain from
its element. -/
def Value.unwrapChain : Nat → Value → List Value
  | 0, v => [v]
  | n + 1, v =>
    if v.Kind = Kind.Ptr ∨ v.Kind = Kind.Interface then
      match v.Elem with
      | .ok e => v :: Value.unwrapChain n e
      | _ => [v]
    else [v]

/-- The handle at the end of the unwrap chain from a handle, over at most `n`
steps. -/
def Value.terminal : Nat → Value → Value
  | 0, v => v
  | n + 1, v =>
    if v.Kind = Kind.Ptr ∨ v.Kind = Kind.Interface then
      match v.Elem with
      | .ok e => Value.terminal n e
      | _ => v
    else v

/-- One layer of indirection around a value: a non-nil pointer or a non-nil
interface, with its type. -/
inductive Layer where
  | ptr (t : TypeId)
  | iface (t : TypeId)
  deriving DecidableEq, Repr

/-- The value `s` under the layers `ls`, outermost first. -/
def Val.wrapLayers : List Layer → Val → Val
  | [], s => s
  | .ptr t :: ls, s => .ptr t (Val.wrapLayers ls s)
  | .iface t :: ls, s => .iface t (Val.wrapLayers ls s)

/-- Whether, in the type table, the type `t` is the type `T` under `n` pointer
layers. -/
def TypeTable.wraps (U : TypeTable) : Nat → TypeId → TypeId → Bool
  | 0, t, T => decide (t = T)
  | n + 1, t, T =>
    decide ((U.lookup t).Kind = Kind.Ptr) && TypeTable.wraps U n (U.lookup t).Elem T

/-- Whether a value is typed as the type table says: the kind of its type is its
kind, and the element type of the type of a pointer is the type of its target. -/
def Val.wellTyped (U : TypeTable) : Val → Bool
  | .ptr t y =>
    decide ((U.lookup t).Kind = Kind.Ptr) && decide ((U.lookup t).Elem = y.typ) &&
      Val.wellTyped U y
  | .iface t y => decide ((U.lookup t).Kind = Kind.Interface) && Val.wellTyped U y
  | .bool t _ => decide ((U.lookup t).Kind = Kind.Bool)
  | .int t w _ => decide ((U.lookup t).Kind = w.Kind)
  | .uint t w _ => decide ((U.lookup t).Kind = w.Kind)
  | .float t w _ => decide ((U.lookup t).Kind = w.Kind)
  | .complex t w _ _ => decide ((U.lookup t).Kind = w.Kind)
  | .str t _ => decide ((U.lookup t).Kind = Kind.String)
  | .nilPtr t => decide ((U.lookup t).Kind = Kind.Ptr)
  | .nilIface t => decide ((U.lookup t).Kind = Kind.Interface)
  | .other t k => decide ((U.lookup t).Kind = k.Kind)

/-- The table with the types `**int` at index 0, `*int` at index 1 and `int`
elsewhere. -/
def ptrPtrIntTable : TypeTable := fun n =>
  if n = 0 then ⟨.Ptr, .defined 1⟩
  else if n = 1 then ⟨.Ptr, .defined 2⟩
  else ⟨.Int, .defined n⟩

/-! ## Lemmas on the model -/

@[simp] theorem Outcome.bind_ok {α β : Type} (a : α) (f : α → Outcome β) :
    (Outcome.ok a).bind f = f a := rfl

@[simp] theorem Outcome.bind_fault {α β : Type} (f : α → Outcome β) :
    (Outcome.fault : Outcome α).bind f = .fault := rfl

@[simp] theorem Outcome.bind_timeout {α β : Type} (f : α → Outcome β) :
    (Outcome.timeout : Outcome α).bind f = .timeout := rfl

theorem Outcome.bind_eq_ok {α β : Type} {o : Outcome α} {f : α → Outcome β} {b : β}
    (h : o.bind f = .ok b) : ∃ a, o = .ok a ∧ f a = .ok b := by
  cases o with
  | ok a => exact ⟨a, rfl, h⟩
  | fault => simp at h
  | timeout => simp at h

@[simp] theorem Val.wrapPtrs_nil (b : Val) : Val.wrapPtrs [] b = b := rfl

@[simp] theorem Val.wrapPtrs_cons (t : TypeId) (ts : List TypeId) (b : Val) :
    Val.wrapPtrs (t :: ts) b = .ptr t (Val.wrapPtrs ts b) := rfl

/-- The loop stops at once on a struct whose origin kind is not a pointer. -/
theorem originValueLoop_stop (fuel : Nat) (out : OriginValueAndKindOutput)
    (h : out.OriginKind ≠ Kind.Ptr) : originValueLoop fuel out = .ok out := by
  cases fuel <;> simp [originValueLoop, h]

/-- One iteration of the loop on a struct whose origin kind is a pointer. -/
theorem originValueLoop_step (fuel : Nat) (out : OriginValueAndKindOutput)
    (h : out.OriginKind = Kind.Ptr) :
    originValueLoop (fuel + 1) out =
      out.OriginValue.Elem.bind fun e =>
        originValueLoop fuel { out with OriginValue := e, OriginKind := e.Kind } := by
  rw [originValueLoop]; simp [h]

/-- Whatever the loop returns has an origin kind that is not a pointer, and the
input fields untouched. -/
theorem originValueLoop_ok (fuel : Nat) :
    ∀ (out res : OriginValueAndKindOutput), originValueLoop fuel out = .ok res →
      res.OriginKind ≠ Kind.Ptr ∧ res.InputValue = out.InputValue ∧
        res.InputKind = out.InputKind := by
  induction fuel with
  | zero =>
    intro out res h
    by_cases hk : out.OriginKind = Kind.Ptr
    · simp [originValueLoop, hk] at h
    · rw [originValueLoop_stop 0 out hk] at h
      cases h; exact ⟨hk, rfl, rfl⟩
  | succ n ih =>
    intro out res h
    by_cases hk : out.OriginKind = Kind.Ptr
    · rw [originValueLoop_step n out hk] at h
      obtain ⟨e, _, he⟩ := Outcome.bind_eq_ok h
      have hrec := ih { out with OriginValue := e, OriginKind := e.Kind } res he
      exact hrec
    · rw [originValueLoop_stop _ out hk] at h
      cases h; exact ⟨hk, rfl, rfl⟩

/-- The loop on a chain of non-nil pointers over a base that is not a pointer
ends on the base. -/
theorem originValueLoop_wrapPtrs (b : Val) (hb : b.Kind ≠ Kind.Ptr) (ro : Bool)
    (i : Value) (ik : Kind) :
    ∀ (ts : List TypeId) (fuel : Nat), ts.length ≤ fuel →
      originValueLoop fuel
          { InputValue := i, InputKind := ik,
            OriginValue := .valid (Val.wrapPtrs ts b) ro,
            OriginKind := (Val.wrapPtrs ts b).Kind } =
        .ok { InputValue := i, InputKind := ik, OriginValue := .valid b ro,
              OriginKind := b.Kind } := by
  intro ts
  induction ts with
  | nil =>
    intro fuel _
    exact originValueLoop_stop fuel _ hb
  | cons t ts ih =>
    intro fuel hf
    cases fuel with
    | zero => simp at hf
    | succ n =>
      rw [originValueLoop_step n _ (by simp [Val.Kind])]
      simp only [Val.wrapPtrs_cons, Value.Elem, Outcome.bind_ok, Value.Kind]
      exact ih n (by simpa using hf)

/-- The type loop stops at once on a struct whose origin kind is not a pointer. -/
theorem originTypeLoop_stop (U : TypeTable) (fuel : Nat) (out : OriginTypeAndKindOutput)
    (h : out.OriginKind ≠ Kind.Ptr) : originTypeLoop U fuel out = .ok out := by
  cases fuel <;> simp [originTypeLoop, h]

/-- One iteration of the type loop on a struct whose origin kind is a pointer. -/
theorem originTypeLoop_step (U : TypeTable) (fuel : Nat) (out : OriginTypeAndKindOutput)
    (h : out.OriginKind = Kind.Ptr) :
    originTypeLoop U (fuel + 1) out =
      (TypeElem U out.OriginType).bind fun e =>
        (TypeKind U e).bind fun k =>
          originTypeLoop U fuel { out with OriginType := e, OriginKind := k } := by
  rw [originTypeLoop]; simp [h]

/-- Whatever the type loop returns has an origin kind that is not a pointer. -/
theorem originTypeLoop_ok (U : TypeTable) (fuel : Nat) :
    ∀ (out res : OriginTypeAndKindOutput), originTypeLoop U fuel out = .ok res →
      res.OriginKind ≠ Kind.Ptr := by
  induction fuel with
  | zero =>
    intro out res h
    by_cases hk : out.OriginKind = Kind.Ptr
    · simp [originTypeLoop, hk] at h
    · rw [originTypeLoop_stop U 0 out hk] at h
      cases h; exact hk
  | succ n ih =>
    intro out res h
    by_cases hk : out.OriginKind = Kind.Ptr
    · rw [originTypeLoop_step U n out hk] at h
      obtain ⟨e, _, he⟩ := Outcome.bind_eq_ok h
      obtain ⟨k, _, hk2⟩ := Outcome.bind_eq_ok he
      exact ih _ res hk2
    · rw [originTypeLoop_stop U _ out hk] at h
      cases h; exact hk

/-! ## Theorems on `OriginValueAndKind` and `OriginTypeAndKind` -/

/-- C1: `OriginValueAndKind` on a base value `b` whose kind is not `Ptr`, wrapped
in `ts.length` layers of non-nil pointers, returns (as soon as the loop is allowed
that many iterations) the kind of `b` as `OriginKind` and the handle of `b` as
`OriginValue`, while `InputValue` and `InputKind` are the handle and kind of the
outermost wrapped value.  This holds when the wrapped value is passed natively
and when it is passed as a handle (whose read-only flag the origin inherits). -/
theorem OriginValueAndKind_wrapPtrs (ts : List TypeId) (b : Val) (ro : Bool) (fuel : Nat)
    (hb : b.Kind ≠ Kind.Ptr) (hf : ts.length ≤ fuel) :
    OriginValueAndKind fuel (.native (Val.wrapPtrs ts b)) =
        .ok { InputValue := .valid (Val.wrapPtrs ts b) false,
              InputKind := (Val.wrapPtrs ts b).Kind,
              OriginValue := .valid b false, OriginKind := b.Kind } ∧
      OriginValueAndKind fuel (.handle (.valid (Val.wrapPtrs ts b) ro)) =
        .ok { InputValue := .valid (Val.wrapPtrs ts b) ro,
              InputKind := (Val.wrapPtrs ts b).Kind,
              OriginValue := .valid b ro, OriginKind := b.Kind } :=
  ⟨originValueLoop_wrapPtrs b hb false _ _ ts fuel hf,
    originValueLoop_wrapPtrs b hb ro _ _ ts fuel hf⟩

/-- Witness of C1: the integer 7 under two pointer layers. -/
theorem OriginValueAndKind_wrapPtrs_witness :
    (Val.int .int64 .w64 7).Kind ≠ Kind.Ptr ∧ [TypeId.defined 1, TypeId.defined 2].length ≤ 2 ∧
      OriginValueAndKind 2
          (.native (.ptr (.defined 1) (.ptr (.defined 2) (.int .int64 .w64 7)))) =
        .ok { InputValue :=
                .valid (.ptr (.defined 1) (.ptr (.defined 2) (.int .int64 .w64 7))) false,
              InputKind := .Ptr,
              OriginValue := .valid (.int .int64 .w64 7) false, OriginKind := .Int64 } :=
  ⟨by decide, by decide,
    (OriginValueAndKind_wrapPtrs [.defined 1, .defined 2] (.int .int64 .w64 7) true 2
      (by decide) (by decide)).1⟩

/-- The type loop never returns from the self-referential pointer type. -/
theorem originTypeLoop_selfPtr (i : Option TypeId) (ik : Kind) :
    ∀ fuel : Nat,
      originTypeLoop selfPtrTable fuel
          { InputType := i, InputKind := ik, OriginType := some (.defined 0),
            OriginKind := .Ptr } = .timeout := by
  intro fuel
  induction fuel with
  | zero => simp [originTypeLoop]
  | succ n ih =>
    rw [originTypeLoop_step _ n _ rfl]
    simpa [TypeElem, TypeKind, TypeTable.lookup, selfPtrTable] using ih

/-- The type loop returns from a type whose pointer chain leaves the pointer
kind within the iterations it is allowed. -/
theorem originTypeLoop_leavesPtr (U : TypeTable) (i : Option TypeId) (ik : Kind) :
    ∀ (n : Nat) (t : TypeId) (fuel : Nat), U.leavesPtr n t = true → n ≤ fuel →
      ∃ res, originTypeLoop U fuel
          { InputType := i, InputKind := ik, OriginType := some t,
            OriginKind := (U.lookup t).Kind } = .ok res := by
  intro n
  induction n with
  | zero =>
    intro t fuel h _
    have hk : (U.lookup t).Kind ≠ Kind.Ptr := by simpa [TypeTable.leavesPtr] using h
    exact ⟨_, originTypeLoop_stop U fuel _ hk⟩
  | succ m ih =>
    intro t fuel h hf
    by_cases hk : (U.lookup t).Kind = Kind.Ptr
    · cases fuel with
      | zero => simp at hf
      | succ f =>
        have hrest : U.leavesPtr m (U.lookup t).Elem = true := by
          simpa [TypeTable.leavesPtr, hk] using h
        obtain ⟨res, hres⟩ := ih (U.lookup t).Elem f hrest (by simpa using hf)
        refine ⟨res, ?_⟩
        rw [originTypeLoop_step U f _ hk]
        simpa [TypeElem, TypeKind, hk] using hres
    · exact ⟨_, originTypeLoop_stop U fuel _ hk⟩

/-- C2: whenever `OriginValueAndKind` or `OriginTypeAndKind` returns, the
`OriginKind` of the result is not `Ptr`; and on the nil interface and on the
zero handle, the origin of whatever is returned is the same invalid (zero) state
as the input, which `OriginValueAndKind` does return on both and
`OriginTypeAndKind` on nil. -/
theorem origin_kind_never_ptr :
    (∀ (fuel : Nat) (value : Any) (out : OriginValueAndKindOutput),
        OriginValueAndKind fuel value = .ok out → out.OriginKind ≠ Kind.Ptr) ∧
    (∀ (U : TypeTable) (fuel : Nat) (value : Any) (out : OriginTypeAndKindOutput),
        OriginTypeAndKind U fuel value = .ok out → out.OriginKind ≠ Kind.Ptr) ∧
    (∀ (fuel : Nat) (value : Any), value = .nil ∨ value = .handle .invalid →
        OriginValueAndKind fuel value =
          .ok { InputValue := .invalid, InputKind := .Invalid,
                OriginValue := .invalid, OriginKind := .Invalid }) ∧
    (∀ (U : TypeTable) (fuel : Nat) (value : Any) (out : OriginTypeAndKindOutput),
        value = .nil ∨ value = .handle .invalid →
        OriginTypeAndKind U fuel value = .ok out →
          out.OriginType = out.InputType ∧ out.OriginKind = out.InputKind ∧
            out.OriginType = none ∧ out.OriginKind = .Invalid) ∧
    (∀ (U : TypeTable) (fuel : Nat),
        OriginTypeAndKind U fuel .nil = .ok OriginTypeAndKindOutput.zero) := by
  refine ⟨?_, ?_, ?_, ?_, ?_⟩
  · intro fuel value out h
    exact (originValueLoop_ok fuel _ out h).1
  · intro U fuel value out h
    cases value with
    | nil =>
      simp only [OriginTypeAndKind] at h
      cases h; simp [OriginTypeAndKindOutput.zero]
    | handle v =>
      simp only [OriginTypeAndKind] at h
      obtain ⟨ty, _, h1⟩ := Outcome.bind_eq_ok h
      obtain ⟨k, _, h2⟩ := Outcome.bind_eq_ok h1
      exact originTypeLoop_ok U fuel _ out h2
    | rtype t box =>
      simp only [OriginTypeAndKind] at h
      obtain ⟨ty, _, h1⟩ := Outcome.bind_eq_ok h
      obtain ⟨k, _, h2⟩ := Outcome.bind_eq_ok h1
      exact originTypeLoop_ok U fuel _ out h2
    | nilRtype box =>
      simp only [OriginTypeAndKind] at h
      obtain ⟨ty, _, h1⟩ := Outcome.bind_eq_ok h
      obtain ⟨k, _, h2⟩ := Outcome.bind_eq_ok h1
      exact originTypeLoop_ok U fuel _ out h2
    | native x =>
      simp only [OriginTypeAndKind] at h
      obtain ⟨ty, _, h1⟩ := Outcome.bind_eq_ok h
      obtain ⟨k, _, h2⟩ := Outcome.bind_eq_ok h1
      exact originTypeLoop_ok U fuel _ out h2
  · intro fuel value hv
    rcases hv with rfl | rfl <;>
      exact originValueLoop_stop fuel _ (by simp [inputValue, ValueOf, Value.Kind])
  · intro U fuel value out hv h
    rcases hv with rfl | rfl
    · simp only [OriginTypeAndKind] at h
      cases h; simp [OriginTypeAndKindOutput.zero]
    · simp [OriginTypeAndKind, inputType, Value.Type] at h
  · intro U fuel
    rfl

/-- C3, counterexample: on the descriptor of the self-referential pointer type
`type P *P`, `OriginTypeAndKind` returns for no number of loop iterations. -/
theorem OriginTypeAndKind_selfPtr_never_returns :
    ¬ ∃ (fuel : Nat) (out : OriginTypeAndKindOutput),
        OriginTypeAndKind selfPtrTable fuel selfPtrType = .ok out := by
  rintro ⟨fuel, out, h⟩
  have hloop := originTypeLoop_selfPtr (some (.defined 0)) .Ptr fuel
  simp [OriginTypeAndKind, selfPtrType, inputType, TypeKind, TypeTable.lookup,
    selfPtrTable, hloop] at h

/-- C3, amended: `OriginTypeAndKind` returns the zero result on nil, and returns
a result, without a fault, on every input from which a type `t` is derived (a
`reflect.Type` with a descriptor behind it, a valid handle, a native value) when
the pointer chain of `t` leaves the pointer kind within `n` dereferences and the
loop is allowed `n` iterations. -/
theorem OriginTypeAndKind_returns (U : TypeTable) (value : Any) (t : TypeId) (n fuel : Nat)
    (hty : inputType value = .ok (some t)) (hchain : U.leavesPtr n t = true)
    (hf : n ≤ fuel) :
    (∃ out, OriginTypeAndKind U fuel value = .ok out) ∧
      OriginTypeAndKind U fuel .nil = .ok OriginTypeAndKindOutput.zero := by
  refine ⟨?_, rfl⟩
  obtain ⟨res, hres⟩ := originTypeLoop_leavesPtr U (some t) (U.lookup t).Kind n t fuel hchain hf
  refine ⟨res, ?_⟩
  cases value with
  | nil => simp [inputType, TypeOf] at hty
  | handle v => simpa [OriginTypeAndKind, hty, TypeKind] using hres
  | rtype t2 box => simpa [OriginTypeAndKind, hty, TypeKind] using hres
  | nilRtype box => simp [inputType] at hty
  | native x => simpa [OriginTypeAndKind, hty, TypeKind] using hres

/-- Witness of C3 as amended: a nil pointer of type `*T`, passed as a handle. -/
theorem OriginTypeAndKind_returns_witness :
    inputType (.handle (.valid (.nilPtr (.defined 0)) false)) = .ok (some (.defined 0)) ∧
      ptrStructTable.leavesPtr 1 (.defined 0) = true ∧ 1 ≤ 1 ∧
      ((∃ out, OriginTypeAndKind ptrStructTable 1
            (.handle (.valid (.nilPtr (.defined 0)) false)) = .ok out) ∧
        OriginTypeAndKind ptrStructTable 1 .nil = .ok OriginTypeAndKindOutput.zero) :=
  ⟨rfl, by decide, by decide,
    OriginTypeAndKind_returns ptrStructTable (.handle (.valid (.nilPtr (.defined 0)) false))
      (.defined 0) 1 1 rfl (by decide) (by decide)⟩

/-- The zero handle makes `OriginTypeAndKind` panic, in `reflect.Value.Type`. -/
theorem OriginTypeAndKind_invalid_handle (U : TypeTable) (fuel : Nat) :
    OriginTypeAndKind U fuel (.handle .invalid) = .fault := rfl

/-- A `reflect.Type` with no descriptor behind it (a nil `*rtype` in a non-nil
interface) passes the nil guard and the type assertion and makes
`OriginTypeAndKind` panic, in `reflect.Type.Kind`. -/
theorem OriginTypeAndKind_nil_descriptor (U : TypeTable) (fuel : Nat) (box : Val) :
    OriginTypeAndKind U fuel (.nilRtype box) = .fault := rfl

/-- A type is derived from an input exactly when the input is a `reflect.Type`
with a descriptor behind it, a valid handle or a native value. -/
theorem inputType_some_iff (value : Any) :
    (∃ t, inputType value = .ok (some t)) ↔
      (∃ t box, value = .rtype t box) ∨ (∃ x ro, value = .handle (.valid x ro)) ∨
        ∃ x, value = .native x := by
  cases value with
  | nil => simp [inputType, TypeOf]
  | handle v => cases v <;> simp [inputType, Value.Type]
  | rtype t box => simp [inputType]
  | nilRtype box => simp [inputType]
  | native x => simp [inputType, TypeOf]

/-- C5: `OriginTypeAndKind(nil)` returns the result with `InputType` and
`OriginType` the nil type and `InputKind` and `OriginKind` the invalid kind,
whatever the type table and with no loop iteration allowed. -/
theorem OriginTypeAndKind_nil (U : TypeTable) (fuel : Nat) :
    OriginTypeAndKind U fuel .nil =
      .ok { InputType := none, InputKind := .Invalid, OriginType := none,
            OriginKind := .Invalid } := rfl

/-- C6: `OriginValueAndKind` on the nil interface returns, with no loop iteration
allowed (and so for any number allowed), `InputKind` and `OriginKind` invalid and
`InputValue` and `OriginValue` the zero handle. -/
theorem OriginValueAndKind_nil :
    OriginValueAndKind 0 .nil =
        .ok { InputValue := .invalid, InputKind := .Invalid,
              OriginValue := .invalid, OriginKind := .Invalid } ∧
      ∀ fuel : Nat, OriginValueAndKind fuel .nil = OriginValueAndKind 0 .nil := by
  refine ⟨rfl, ?_⟩
  intro fuel
  rw [OriginValueAndKind, OriginValueAndKind,
    originValueLoop_stop fuel _ (by simp [inputValue, ValueOf, Value.Kind]),
    originValueLoop_stop 0 _ (by simp [inputValue, ValueOf, Value.Kind])]

/-- C7: on every input whose handle has a kind other than `Ptr`, the nil
interface included, `OriginValueAndKind` returns without a loop iteration, with
`OriginValue` the `InputValue` and `OriginKind` the `InputKind`. -/
theorem OriginValueAndKind_non_ptr (value : Any) (fuel : Nat)
    (h : (inputValue value).Kind ≠ Kind.Ptr) :
    OriginValueAndKind fuel value =
        .ok { InputValue := inputValue value, InputKind := (inputValue value).Kind,
              OriginValue := inputValue value, OriginKind := (inputValue value).Kind } ∧
      OriginValueAndKind 0 .nil =
        .ok { InputValue := .invalid, InputKind := .Invalid,
              OriginValue := .invalid, OriginKind := .Invalid } :=
  ⟨originValueLoop_stop fuel _ h, rfl⟩

/-- Witness of C7: a struct, with no loop iteration allowed. -/
theorem OriginValueAndKind_non_ptr_witness :
    (inputValue (.native (.other (.defined 3) .Struct))).Kind ≠ Kind.Ptr ∧
      OriginValueAndKind 0 (.native (.other (.defined 3) .Struct)) =
        .ok { InputValue := .valid (.other (.defined 3) .Struct) false,
              InputKind := .Struct,
              OriginValue := .valid (.other (.defined 3) .Struct) false,
              OriginKind := .Struct } :=
  ⟨by decide, (OriginValueAndKind_non_ptr (.native (.other (.defined 3) .Struct)) 0
    (by decide)).1⟩

/-! ## Lemmas on `ValueToInterface` -/

/-- On a valid handle that is not read-only, the result is the generic
conversion. -/
theorem ValueToInterface_generic (fuel : Nat) (x : Val) :
    ValueToInterface fuel (.valid x false) =
      (Value.Interface (.valid x false)).bind fun i => .ok (i, true) := by
  cases fuel <;> simp [ValueToInterface, Value.IsValid, Value.CanInterface]

/-- The generic conversion of a valid handle that is not read-only returns. -/
theorem Value.Interface_valid (x : Val) :
    ∃ i, Value.Interface (.valid x false) = .ok i ∧
      (x.Kind ≠ Kind.Interface → i = .native x) := by
  cases x <;> simp [Value.Interface, Val.Kind]

theorem ValueToInterface_invalid (fuel : Nat) :
    ValueToInterface fuel .invalid = .ok (.nil, false) := by
  cases fuel <;> simp [ValueToInterface, Value.IsValid, Value.Kind]

theorem ValueToInterface_ptr (fuel : Nat) (t : TypeId) (x : Val) :
    ValueToInterface (fuel + 1) (.valid (.ptr t x) true) =
      ValueToInterface fuel (.valid x true) := by
  rw [ValueToInterface]
  simp [Value.IsValid, Value.CanInterface, Value.Kind, Val.Kind, Value.Elem]

theorem ValueToInterface_iface (fuel : Nat) (t : TypeId) (x : Val) :
    ValueToInterface (fuel + 1) (.valid (.iface t x) true) =
      ValueToInterface fuel (.valid x true) := by
  rw [ValueToInterface]
  simp [Value.IsValid, Value.CanInterface, Value.Kind, Val.Kind, Value.Elem]

theorem ValueToInterface_nilPtr (fuel : Nat) (t : TypeId) :
    ValueToInterface (fuel + 1) (.valid (.nilPtr t) true) = .ok (.nil, false) := by
  rw [ValueToInterface]
  simp [Value.IsValid, Value.CanInterface, Value.Kind, Val.Kind, Value.Elem,
    ValueToInterface_invalid]

theorem ValueToInterface_nilIface (fuel : Nat) (t : TypeId) :
    ValueToInterface (fuel + 1) (.valid (.nilIface t) true) = .ok (.nil, false) := by
  rw [ValueToInterface]
  simp [Value.IsValid, Value.CanInterface, Value.Kind, Val.Kind, Value.Elem,
    ValueToInterface_invalid]

theorem ValueToInterface_zero_unwrap (x : Val) (h : 0 < x.unwrapDepth) :
    ValueToInterface 0 (.valid x true) = .timeout := by
  cases x <;> simp [Val.unwrapDepth] at h <;>
    simp [ValueToInterface, Value.IsValid, Value.CanInterface, Value.Kind, Val.Kind]

theorem ValueToInterface_bool (fuel : Nat) (t : TypeId) (b : Bool) :
    ValueToInterface fuel (.valid (.bool t b) true) =
      .ok (.native (.bool .bool b), true) := by
  cases fuel <;>
    simp [ValueToInterface, Value.IsValid, Value.CanInterface, Value.Kind, Val.Kind,
      Value.Bool]

theorem ValueToInterface_int (fuel : Nat) (t : TypeId) (w : IntWidth) (n : Int) :
    ValueToInterface fuel (.valid (.int t w n) true) =
      .ok (.native (.int .int64 .w64 (toInt64 n)), true) := by
  cases fuel <;> cases w <;>
    simp [ValueToInterface, Value.IsValid, Value.CanInterface, Value.Kind, Val.Kind,
      IntWidth.Kind, Value.Int]

theorem ValueToInterface_uint (fuel : Nat) (t : TypeId) (w : UintWidth) (n : Nat) :
    ValueToInterface fuel (.valid (.uint t w n) true) =
      .ok (.native (.uint .uint64 .w64 (toUint64 n)), true) := by
  cases fuel <;> cases w <;>
    simp [ValueToInterface, Value.IsValid, Value.CanInterface, Value.Kind, Val.Kind,
      UintWidth.Kind, Value.Uint]

theorem ValueToInterface_float (fuel : Nat) (t : TypeId) (w : FloatWidth) (f : FloatBits) :
    ValueToInterface fuel (.valid (.float t w f) true) =
      .ok (.native (.float .float64 .w64 f), true) := by
  cases fuel <;> cases w <;>
    simp [ValueToInterface, Value.IsValid, Value.CanInterface, Value.Kind, Val.Kind,
      FloatWidth.Kind, Value.Float]

theorem ValueToInterface_complex (fuel : Nat) (t : TypeId) (w : ComplexWidth)
    (re im : FloatBits) :
    ValueToInterface fuel (.valid (.complex t w re im) true) =
      .ok (.native (.complex .complex128 .w128 re im), true) := by
  cases fuel <;> cases w <;>
    simp [ValueToInterface, Value.IsValid, Value.CanInterface, Value.Kind, Val.Kind,
      ComplexWidth.Kind, Value.Complex]

theorem ValueToInterface_str (fuel : Nat) (t : TypeId) (s : String) :
    ValueToInterface fuel (.valid (.str t s) true) =
      .ok (.native (.str .string s), true) := by
  cases fuel <;>
    simp [ValueToInterface, Value.IsValid, Value.CanInterface, Value.Kind, Val.Kind,
      Value.String]

theorem ValueToInterface_other (fuel : Nat) (t : TypeId) (k : OtherKind) :
    ValueToInterface fuel (.valid (.other t k) true) = .ok (.nil, false) := by
  cases fuel <;> cases k <;>
    simp [ValueToInterface, Value.IsValid, Value.CanInterface, Value.Kind, Val.Kind,
      OtherKind.Kind]

/-- The conversion to `int64` keeps every number of a signed width. -/
theorem toInt64_of_inRange (ws : Nat) (hws : ws = 32 ∨ ws = 64) (t : TypeId)
    (w : IntWidth) (n : Int) (h : (Val.int t w n).inRange ws = true) :
    toInt64 n = n ∧ -(2 ^ 63 : Int) ≤ n ∧ n < 2 ^ 63 := by
  have hr : -(2 ^ 63 : Int) ≤ n ∧ n < 2 ^ 63 := by
    rcases hws with rfl | rfl <;> cases w <;>
      simp [Val.inRange, IntWidth.bits] at h <;> omega
  refine ⟨?_, hr⟩
  unfold toInt64
  omega

/-- The conversion to `uint64` keeps every number of an unsigned width. -/
theorem toUint64_of_inRange (ws : Nat) (hws : ws = 32 ∨ ws = 64) (t : TypeId)
    (w : UintWidth) (n : Nat) (h : (Val.uint t w n).inRange ws = true) :
    toUint64 n = n ∧ n < 2 ^ 64 := by
  have hr : n < 2 ^ 64 := by
    rcases hws with rfl | rfl <;> cases w <;>
      simp [Val.inRange, UintWidth.bits] at h <;> omega
  exact ⟨Nat.mod_eq_of_lt hr, hr⟩

/-- A value whose kind is `Ptr` is a pointer, nil or not. -/
theorem Val.Kind_eq_Ptr {x : Val} (h : x.Kind = Kind.Ptr) :
    (∃ t y, x = .ptr t y) ∨ ∃ t, x = .nilPtr t := by
  cases x with
  | ptr t y => exact Or.inl ⟨t, y, rfl⟩
  | nilPtr t => exact Or.inr ⟨t, rfl⟩
  | int t w n => cases w <;> simp [Val.Kind, IntWidth.Kind] at h
  | uint t w n => cases w <;> simp [Val.Kind, UintWidth.Kind] at h
  | float t w f => cases w <;> simp [Val.Kind, FloatWidth.Kind] at h
  | complex t w re im => cases w <;> simp [Val.Kind, ComplexWidth.Kind] at h
  | other t k => cases k <;> simp [Val.Kind, OtherKind.Kind] at h
  | bool t b => simp [Val.Kind] at h
  | str t s => simp [Val.Kind] at h
  | nilIface t => simp [Val.Kind] at h
  | iface t d => simp [Val.Kind] at h

/-- `Elem` panics exactly on the handles whose kind is neither `Ptr` nor
`Interface`. -/
theorem Value.Elem_fault_iff (v : Value) :
    v.Elem = .fault ↔ v.Kind ≠ Kind.Ptr ∧ v.Kind ≠ Kind.Interface := by
  cases v with
  | invalid => simp [Value.Elem, Value.Kind]
  | valid x ro =>
    cases x with
    | int t w n => cases w <;> simp [Value.Elem, Value.Kind, Val.Kind, IntWidth.Kind]
    | uint t w n => cases w <;> simp [Value.Elem, Value.Kind, Val.Kind, UintWidth.Kind]
    | float t w f => cases w <;> simp [Value.Elem, Value.Kind, Val.Kind, FloatWidth.Kind]
    | complex t w re im =>
      cases w <;> simp [Value.Elem, Value.Kind, Val.Kind, ComplexWidth.Kind]
    | other t k => cases k <;> simp [Value.Elem, Value.Kind, Val.Kind, OtherKind.Kind]
    | _ => simp [Value.Elem, Value.Kind, Val.Kind]

/-- From a struct whose origin kind is the kind of its origin value, the loop of
`OriginValueAndKind` never panics, and it returns when it is allowed as many
iterations as there are pointers on the chain. -/
theorem originValueLoop_returns (i : Value) (ik : Kind) (ro : Bool) :
    ∀ (x : Val) (fuel : Nat),
      originValueLoop fuel
          { InputValue := i, InputKind := ik, OriginValue := .valid x ro,
            OriginKind := x.Kind } ≠ .fault ∧
        (x.ptrDepth ≤ fuel →
          ∃ res, originValueLoop fuel
            { InputValue := i, InputKind := ik, OriginValue := .valid x ro,
              OriginKind := x.Kind } = .ok res) := by
  intro x
  induction x with
  | ptr t y ih =>
    intro fuel
    cases fuel with
    | zero => simp [originValueLoop, Val.Kind, Val.ptrDepth]
    | succ f =>
      rw [originValueLoop_step f _ (by simp [Val.Kind])]
      simp only [Value.Elem, Outcome.bind_ok, Value.Kind, Val.ptrDepth,
        Nat.add_le_add_iff_right]
      exact ih f
  | nilPtr t =>
    intro fuel
    cases fuel with
    | zero => simp [originValueLoop, Val.Kind, Val.ptrDepth]
    | succ f =>
      rw [originValueLoop_step f _ (by simp [Val.Kind])]
      simp only [Value.Elem, Outcome.bind_ok, Value.Kind]
      rw [originValueLoop_stop f _ (by simp)]
      simp
  | int t w n =>
    intro fuel
    rw [originValueLoop_stop fuel _ (by cases w <;> simp [Val.Kind, IntWidth.Kind])]
    simp
  | uint t w n =>
    intro fuel
    rw [originValueLoop_stop fuel _ (by cases w <;> simp [Val.Kind, UintWidth.Kind])]
    simp
  | float t w f =>
    intro fuel
    rw [originValueLoop_stop fuel _ (by cases w <;> simp [Val.Kind, FloatWidth.Kind])]
    simp
  | complex t w re im =>
    intro fuel
    rw [originValueLoop_stop fuel _ (by cases w <;> simp [Val.Kind, ComplexWidth.Kind])]
    simp
  | other t k =>
    intro fuel
    rw [originValueLoop_stop fuel _ (by cases k <;> simp [Val.Kind, OtherKind.Kind])]
    simp
  | bool t b =>
    intro fuel
    rw [originValueLoop_stop fuel _ (by simp [Val.Kind])]
    simp
  | str t s =>
    intro fuel
    rw [originValueLoop_stop fuel _ (by simp [Val.Kind])]
    simp
  | nilIface t =>
    intro fuel
    rw [originValueLoop_stop fuel _ (by simp [Val.Kind])]
    simp
  | iface t d _ =>
    intro fuel
    rw [originValueLoop_stop fuel _ (by simp [Val.Kind])]
    simp

/-- `ValueToInterface` never panics on a valid handle, and it returns when it is
allowed as many recursive calls as there are pointer and interface layers. -/
theorem ValueToInterface_returns (ro : Bool) :
    ∀ (x : Val) (fuel : Nat),
      ValueToInterface fuel (.valid x ro) ≠ .fault ∧
        (x.unwrapDepth ≤ fuel → ∃ r, ValueToInterface fuel (.valid x ro) = .ok r) := by
  cases ro with
  | false =>
    intro x fuel
    obtain ⟨i, hi, _⟩ := Value.Interface_valid x
    rw [ValueToInterface_generic, hi]
    simp
  | true =>
    intro x
    induction x with
    | ptr t y ih =>
      intro fuel
      cases fuel with
      | zero => simp [ValueToInterface_zero_unwrap, Val.unwrapDepth]
      | succ f =>
        rw [ValueToInterface_ptr]
        simpa [Val.unwrapDepth] using ih f
    | iface t y ih =>
      intro fuel
      cases fuel with
      | zero => simp [ValueToInterface_zero_unwrap, Val.unwrapDepth]
      | succ f =>
        rw [ValueToInterface_iface]
        simpa [Val.unwrapDepth] using ih f
    | nilPtr t =>
      intro fuel
      cases fuel with
      | zero => simp [ValueToInterface_zero_unwrap, Val.unwrapDepth]
      | succ f => simp [ValueToInterface_nilPtr]
    | nilIface t =>
      intro fuel
      cases fuel with
      | zero => simp [ValueToInterface_zero_unwrap, Val.unwrapDepth]
      | succ f => simp [ValueToInterface_nilIface]
    | int t w n => intro fuel; simp [ValueToInterface_int]
    | uint t w n => intro fuel; simp [ValueToInterface_uint]
    | float t w f => intro fuel; simp [ValueToInterface_float]
    | complex t w re im => intro fuel; simp [ValueToInterface_complex]
    | other t k => intro fuel; simp [ValueToInterface_other]
    | bool t b => intro fuel; simp [ValueToInterface_bool]
    | str t s => intro fuel; simp [ValueToInterface_str]

/-! ## Theorems on faults and on `ValueToInterface` -/

/-- C4: on every input built from a finite value, the zero handle, nil pointers
and nil interfaces included, `OriginValueAndKind` and `ValueToInterface` never
panic, whatever the number of iterations or recursive calls they are allowed, and
they return once allowed as many as there are layers on the chain.  Since `Elem`
and each decoder of the model panic outside their precondition, every one of them
is called within it. -/
theorem no_fault (value : Any) (v : Value) (fuel : Nat) :
    (OriginValueAndKind fuel value ≠ .fault ∧
      ((inputValue value).ptrDepth ≤ fuel →
        ∃ out, OriginValueAndKind fuel value = .ok out)) ∧
    (ValueToInterface fuel v ≠ .fault ∧
      (v.unwrapDepth ≤ fuel → ∃ r, ValueToInterface fuel v = .ok r)) := by
  constructor
  · unfold OriginValueAndKind
    cases hv : inputValue value with
    | invalid =>
      rw [originValueLoop_stop fuel _ (by simp [Value.Kind])]
      simp
    | valid x ro => exact originValueLoop_returns _ _ ro x fuel
  · cases v with
    | invalid => simp [ValueToInterface_invalid]
    | valid x ro => exact ValueToInterface_returns ro x fuel

/-- Witness of C4: a read-only pointer to an interface holding a nil pointer. -/
theorem no_fault_witness :
    (∃ out, OriginValueAndKind 1
        (.handle (.valid (.ptr (.defined 1) (.iface (.defined 2) (.nilPtr (.defined 3)))) true))
          = .ok out) ∧
      ∃ r, ValueToInterface 3
        (.valid (.ptr (.defined 1) (.iface (.defined 2) (.nilPtr (.defined 3)))) true) = .ok r :=
  ⟨(no_fault
      (.handle (.valid (.ptr (.defined 1) (.iface (.defined 2) (.nilPtr (.defined 3)))) true))
      .invalid 1).1.2 (by decide),
    (no_fault .nil
      (.valid (.ptr (.defined 1) (.iface (.defined 2) (.nilPtr (.defined 3)))) true) 3).2.2
      (by decide)⟩

/-- C8: on every handle that is valid and permits generic conversion,
`ValueToInterface` returns the generic conversion of the handle with `true`,
whatever the kind and with no recursive call allowed; for a handle of a kind
other than `Interface` the conversion is the very value the handle wraps, under
its own type and width. -/
theorem ValueToInterface_generic_first (v : Value) (fuel : Nat)
    (hv : v.IsValid = true) (hc : v.CanInterface = .ok true) :
    ∃ i, v.Interface = .ok i ∧ ValueToInterface fuel v = .ok (i, true) ∧
      ValueToInterface 0 v = .ok (i, true) ∧
      ∀ x ro, v = .valid x ro → x.Kind ≠ Kind.Interface → i = .native x := by
  cases v with
  | invalid => simp [Value.IsValid] at hv
  | valid x ro =>
    cases ro with
    | true => simp [Value.CanInterface] at hc
    | false =>
      obtain ⟨i, hi, hx⟩ := Value.Interface_valid x
      refine ⟨i, hi, ?_, ?_, ?_⟩
      · rw [ValueToInterface_generic, hi]; rfl
      · rw [ValueToInterface_generic, hi]; rfl
      · intro y ro hy hk
        cases hy
        exact hx hk

/-- Witness of C8: a pointer to an `int8`, with no recursive call allowed. -/
theorem ValueToInterface_generic_first_witness :
    (Value.valid (.ptr (.defined 1) (.int (.defined 2) .w8 5)) false).IsValid = true ∧
      (Value.valid (.ptr (.defined 1) (.int (.defined 2) .w8 5)) false).CanInterface
        = .ok true ∧
      ∃ i, (Value.valid (.ptr (.defined 1) (.int (.defined 2) .w8 5)) false).Interface
          = .ok i ∧
        ValueToInterface 0 (.valid (.ptr (.defined 1) (.int (.defined 2) .w8 5)) false)
          = .ok (i, true) ∧
        ValueToInterface 0 (.valid (.ptr (.defined 1) (.int (.defined 2) .w8 5)) false)
          = .ok (i, true) ∧
        ∀ x ro, Value.valid (.ptr (.defined 1) (.int (.defined 2) .w8 5)) false
            = .valid x ro → x.Kind ≠ Kind.Interface → i = .native x :=
  ⟨rfl, rfl,
    ValueToInterface_generic_first
      (.valid (.ptr (.defined 1) (.int (.defined 2) .w8 5)) false) 0 rfl rfl⟩

/-- C9: on every valid handle of a scalar kind (boolean, signed integer, unsigned
integer, floating point, complex, string) that holds a value of its width,
read-only or not, `ValueToInterface` returns `true` with a value whose
normalisation to the widest representation of the kind is the source value. -/
theorem ValueToInterface_scalar (ws : Nat) (x : Val) (ro : Bool) (fuel : Nat) (s : Scalar)
    (hws : ws = 32 ∨ ws = 64) (hr : x.inRange ws = true) (hs : x.source = some s) :
    ∃ r, ValueToInterface fuel (.valid x ro) = .ok (r, true) ∧ r.normalise = some s := by
  cases ro with
  | false =>
    rw [ValueToInterface_generic]
    cases x with
    | int t w n =>
      have h64 := (toInt64_of_inRange ws hws t w n hr).1
      simp only [Val.source, Option.some.injEq] at hs
      subst hs
      exact ⟨_, rfl, by simp [Any.normalise, Val.normalise, h64]⟩
    | uint t w n =>
      have h64 := (toUint64_of_inRange ws hws t w n hr).1
      simp only [Val.source, Option.some.injEq] at hs
      subst hs
      exact ⟨_, rfl, by simp [Any.normalise, Val.normalise, h64]⟩
    | bool t b => exact ⟨_, rfl, by simpa [Any.normalise, Val.normalise, Val.source] using hs⟩
    | float t w f => exact ⟨_, rfl, by simpa [Any.normalise, Val.normalise, Val.source] using hs⟩
    | complex t w re im =>
      exact ⟨_, rfl, by simpa [Any.normalise, Val.normalise, Val.source] using hs⟩
    | str t z => exact ⟨_, rfl, by simpa [Any.normalise, Val.normalise, Val.source] using hs⟩
    | nilPtr t => simp [Val.source] at hs
    | ptr t y => simp [Val.source] at hs
    | nilIface t => simp [Val.source] at hs
    | iface t y => simp [Val.source] at hs
    | other t k => simp [Val.source] at hs
  | true =>
    cases x with
    | int t w n =>
      have h64 := (toInt64_of_inRange ws hws t w n hr).1
      simp only [Val.source, Option.some.injEq] at hs
      subst hs
      exact ⟨_, ValueToInterface_int fuel t w n, by simp [Any.normalise, Val.normalise, h64]⟩
    | uint t w n =>
      have h64 := (toUint64_of_inRange ws hws t w n hr).1
      simp only [Val.source, Option.some.injEq] at hs
      subst hs
      exact ⟨_, ValueToInterface_uint fuel t w n, by simp [Any.normalise, Val.normalise, h64]⟩
    | bool t b =>
      exact ⟨_, ValueToInterface_bool fuel t b,
        by simpa [Any.normalise, Val.normalise, Val.source] using hs⟩
    | float t w f =>
      exact ⟨_, ValueToInterface_float fuel t w f,
        by simpa [Any.normalise, Val.normalise, Val.source] using hs⟩
    | complex t w re im =>
      exact ⟨_, ValueToInterface_complex fuel t w re im,
        by simpa [Any.normalise, Val.normalise, Val.source] using hs⟩
    | str t z =>
      exact ⟨_, ValueToInterface_str fuel t z,
        by simpa [Any.normalise, Val.normalise, Val.source] using hs⟩
    | nilPtr t => simp [Val.source] at hs
    | ptr t y => simp [Val.source] at hs
    | nilIface t => simp [Val.source] at hs
    | iface t y => simp [Val.source] at hs
    | other t k => simp [Val.source] at hs

/-- Witness of C9: a read-only `int16` holding -300. -/
theorem ValueToInterface_scalar_witness :
    ((64 : Nat) = 32 ∨ (64 : Nat) = 64) ∧
      (Val.int (.defined 1) .w16 (-300)).inRange 64 = true ∧
      (Val.int (.defined 1) .w16 (-300)).source = some (.int (-300)) ∧
      ∃ r, ValueToInterface 0 (.valid (.int (.defined 1) .w16 (-300)) true) = .ok (r, true) ∧
        r.normalise = some (.int (-300)) :=
  ⟨by decide, by decide, rfl,
    ValueToInterface_scalar 64 (.int (.defined 1) .w16 (-300)) true 0 (.int (-300))
      (by decide) (by decide) rfl⟩

/-- C10: on a read-only handle (no generic conversion), a signed integer handle
of any width holding a number `n` of that width yields `n` as an `int64` with
`true`, and `n` is a number of 64 signed bits; an unsigned integer handle of any
width, `uintptr` included, holding `m` yields `m` as a `uint64` with `true`, and
`m` is a number of 64 unsigned bits. -/
theorem ValueToInterface_widen (ws : Nat) (fuel : Nat) (t : TypeId)
    (hws : ws = 32 ∨ ws = 64) :
    (∀ (w : IntWidth) (n : Int), (Val.int t w n).inRange ws = true →
        ValueToInterface fuel (.valid (.int t w n) true) =
            .ok (.native (.int .int64 .w64 n), true) ∧
          -(2 ^ 63 : Int) ≤ n ∧ n < 2 ^ 63) ∧
    (∀ (w : UintWidth) (m : Nat), (Val.uint t w m).inRange ws = true →
        ValueToInterface fuel (.valid (.uint t w m) true) =
            .ok (.native (.uint .uint64 .w64 m), true) ∧
          m < 2 ^ 64) := by
  constructor
  · intro w n h
    obtain ⟨h64, hr⟩ := toInt64_of_inRange ws hws t w n h
    rw [ValueToInterface_int, h64]
    exact ⟨rfl, hr⟩
  · intro w m h
    obtain ⟨h64, hr⟩ := toUint64_of_inRange ws hws t w m h
    rw [ValueToInterface_uint, h64]
    exact ⟨rfl, hr⟩

/-- Witness of C10: an `int8` holding -128 and a `uintptr` holding 2^32 - 1 where
the word has 32 bits. -/
theorem ValueToInterface_widen_witness :
    ((32 : Nat) = 32 ∨ (32 : Nat) = 64) ∧
      ValueToInterface 0 (.valid (.int (.defined 1) .w8 (-128)) true) =
        .ok (.native (.int .int64 .w64 (-128)), true) ∧
      ValueToInterface 0 (.valid (.uint (.defined 2) .ptr 4294967295) true) =
        .ok (.native (.uint .uint64 .w64 4294967295), true) :=
  ⟨by decide,
    ((ValueToInterface_widen 32 0 (.defined 1) (by decide)).1 .w8 (-128) (by decide)).1,
    ((ValueToInterface_widen 32 0 (.defined 2) (by decide)).2 .ptr 4294967295 (by decide)).1⟩

/-! ## Theorems on the failure outcome of `ValueToInterface` -/

/-- C11: on every read-only handle (no generic conversion) of kind struct, array,
slice, map, func, chan or unsafe pointer, and on the zero handle,
`ValueToInterface` returns `(nil, false)`. -/
theorem ValueToInterface_unhandled (x : Val) (fuel : Nat)
    (hk : x.Kind = Kind.Struct ∨ x.Kind = Kind.Array ∨ x.Kind = Kind.Slice ∨
      x.Kind = Kind.Map ∨ x.Kind = Kind.Func ∨ x.Kind = Kind.Chan ∨
      x.Kind = Kind.UnsafePointer) :
    ValueToInterface fuel (.valid x true) = .ok (.nil, false) ∧
      ValueToInterface fuel .invalid = .ok (.nil, false) := by
  refine ⟨?_, ValueToInterface_invalid fuel⟩
  cases x with
  | other t k => exact ValueToInterface_other fuel t k
  | int t w n => cases w <;> simp [Val.Kind, IntWidth.Kind] at hk
  | uint t w n => cases w <;> simp [Val.Kind, UintWidth.Kind] at hk
  | float t w f => cases w <;> simp [Val.Kind, FloatWidth.Kind] at hk
  | complex t w re im => cases w <;> simp [Val.Kind, ComplexWidth.Kind] at hk
  | bool t b => simp [Val.Kind] at hk
  | str t s => simp [Val.Kind] at hk
  | nilPtr t => simp [Val.Kind] at hk
  | ptr t y => simp [Val.Kind] at hk
  | nilIface t => simp [Val.Kind] at hk
  | iface t y => simp [Val.Kind] at hk

/-- Witness of C11: a read-only handle of a map. -/
theorem ValueToInterface_unhandled_witness :
    ((Val.other (.defined 4) .Map).Kind = Kind.Struct ∨
      (Val.other (.defined 4) .Map).Kind = Kind.Array ∨
      (Val.other (.defined 4) .Map).Kind = Kind.Slice ∨
      (Val.other (.defined 4) .Map).Kind = Kind.Map ∨
      (Val.other (.defined 4) .Map).Kind = Kind.Func ∨
      (Val.other (.defined 4) .Map).Kind = Kind.Chan ∨
      (Val.other (.defined 4) .Map).Kind = Kind.UnsafePointer) ∧
      ValueToInterface 0 (.valid (.other (.defined 4) .Map) true) = .ok (.nil, false) ∧
      ValueToInterface 0 .invalid = .ok (.nil, false) :=
  ⟨by decide, ValueToInterface_unhandled (.other (.defined 4) .Map) 0 (by decide)⟩

/-- The unwrap chain from a handle starts with the handle. -/
theorem Value.mem_unwrapChain (n : Nat) (v : Value) : v ∈ v.unwrapChain n := by
  cases n with
  | zero => simp [Value.unwrapChain]
  | succ m =>
    unfold Value.unwrapChain
    split
    · split <;> simp
    · simp

/-- No handle on the unwrap chain from a read-only handle permits generic
conversion: the element of a read-only handle is read-only or the zero handle. -/
theorem Value.unwrapChain_readonly :
    ∀ (n : Nat) (x : Val) (h : Value), h ∈ (Value.valid x true).unwrapChain n →
      convertible h = false := by
  intro n
  induction n with
  | zero =>
    intro x h hm
    simp only [Value.unwrapChain, List.mem_singleton] at hm
    subst hm
    simp [convertible, Value.CanInterface]
  | succ m ih =>
    intro x h hm
    have hx : convertible (Value.valid x true) = false := by
      simp [convertible, Value.CanInterface]
    have hz : ∀ k : Nat, ∀ g ∈ Value.invalid.unwrapChain k, convertible g = false := by
      intro k g hg
      cases k <;> simp [Value.unwrapChain, Value.Kind] at hg <;> subst hg <;>
        simp [convertible, Value.IsValid]
    unfold Value.unwrapChain at hm
    split at hm
    · cases x with
      | ptr t y =>
        simp only [Value.Elem, List.mem_cons] at hm
        rcases hm with rfl | hm
        · exact hx
        · exact ih y h hm
      | iface t y =>
        simp only [Value.Elem, List.mem_cons] at hm
        rcases hm with rfl | hm
        · exact hx
        · exact ih y h hm
      | nilPtr t =>
        simp only [Value.Elem, List.mem_cons] at hm
        rcases hm with rfl | hm
        · exact hx
        · exact hz m h hm
      | nilIface t =>
        simp only [Value.Elem, List.mem_cons] at hm
        rcases hm with rfl | hm
        · exact hx
        · exact hz m h hm
      | _ =>
        simp only [Value.Elem, List.mem_singleton] at hm
        subst hm; exact hx
    · simp only [List.mem_singleton] at hm
      subst hm; exact hx

/-- On a read-only handle, `ValueToInterface` returns, and its flag is false
exactly when the kind at the end of the unwrap chain is not a scalar kind; the
value is then nil. -/
theorem ValueToInterface_readonly_flag :
    ∀ (x : Val) (fuel : Nat), x.unwrapDepth ≤ fuel →
      ∃ r b, ValueToInterface fuel (.valid x true) = .ok (r, b) ∧
        (b = false ↔
          isScalarKind ((Value.valid x true).terminal x.unwrapDepth).Kind = false) ∧
        (b = false → r = .nil) := by
  intro x
  induction x with
  | ptr t y ih =>
    intro fuel hf
    cases fuel with
    | zero => simp [Val.unwrapDepth] at hf
    | succ f =>
      obtain ⟨r, b, h1, h2, h3⟩ := ih f (by simpa [Val.unwrapDepth] using hf)
      refine ⟨r, b, ?_, ?_, h3⟩
      · rw [ValueToInterface_ptr]; exact h1
      · simpa [Val.unwrapDepth, Value.terminal, Value.Kind, Val.Kind, Value.Elem] using h2
  | iface t y ih =>
    intro fuel hf
    cases fuel with
    | zero => simp [Val.unwrapDepth] at hf
    | succ f =>
      obtain ⟨r, b, h1, h2, h3⟩ := ih f (by simpa [Val.unwrapDepth] using hf)
      refine ⟨r, b, ?_, ?_, h3⟩
      · rw [ValueToInterface_iface]; exact h1
      · simpa [Val.unwrapDepth, Value.terminal, Value.Kind, Val.Kind, Value.Elem] using h2
  | nilPtr t =>
    intro fuel hf
    cases fuel with
    | zero => simp [Val.unwrapDepth] at hf
    | succ f =>
      exact ⟨.nil, false, ValueToInterface_nilPtr f t,
        by simp [Val.unwrapDepth, Value.terminal, Value.Kind, Val.Kind, Value.Elem,
          isScalarKind], fun _ => rfl⟩
  | nilIface t =>
    intro fuel hf
    cases fuel with
    | zero => simp [Val.unwrapDepth] at hf
    | succ f =>
      exact ⟨.nil, false, ValueToInterface_nilIface f t,
        by simp [Val.unwrapDepth, Value.terminal, Value.Kind, Val.Kind, Value.Elem,
          isScalarKind], fun _ => rfl⟩
  | other t k =>
    intro fuel _
    exact ⟨.nil, false, ValueToInterface_other fuel t k,
      by cases k <;>
        simp [Val.unwrapDepth, Value.terminal, Value.Kind, Val.Kind, OtherKind.Kind,
          isScalarKind], fun _ => rfl⟩
  | bool t b =>
    intro fuel _
    exact ⟨_, true, ValueToInterface_bool fuel t b,
      by simp [Val.unwrapDepth, Value.terminal, Value.Kind, Val.Kind, isScalarKind],
      by simp⟩
  | int t w n =>
    intro fuel _
    exact ⟨_, true, ValueToInterface_int fuel t w n,
      by cases w <;>
        simp [Val.unwrapDepth, Value.terminal, Value.Kind, Val.Kind, IntWidth.Kind,
          isScalarKind],
      by simp⟩
  | uint t w n =>
    intro fuel _
    exact ⟨_, true, ValueToInterface_uint fuel t w n,
      by cases w <;>
        simp [Val.unwrapDepth, Value.terminal, Value.Kind, Val.Kind, UintWidth.Kind,
          isScalarKind],
      by simp⟩
  | float t w f =>
    intro fuel _
    exact ⟨_, true, ValueToInterface_float fuel t w f,
      by cases w <;>
        simp [Val.unwrapDepth, Value.terminal, Value.Kind, Val.Kind, FloatWidth.Kind,
          isScalarKind],
      by simp⟩
  | complex t w re im =>
    intro fuel _
    exact ⟨_, true, ValueToInterface_complex fuel t w re im,
      by cases w <;>
        simp [Val.unwrapDepth, Value.terminal, Value.Kind, Val.Kind, ComplexWidth.Kind,
          isScalarKind],
      by simp⟩
  | str t s =>
    intro fuel _
    exact ⟨_, true, ValueToInterface_str fuel t s,
      by simp [Val.unwrapDepth, Value.terminal, Value.Kind, Val.Kind, isScalarKind],
      by simp⟩

/-- C12: once allowed as many recursive calls as there are layers,
`ValueToInterface` returns, and its success flag is false if and only if no
handle on the pointer/interface unwrap chain from the input is both valid and
generically convertible and the handle at the end of the chain has a kind that is
none of the six scalar categories; whenever the flag is false the value returned
is nil. -/
theorem ValueToInterface_false_iff (v : Value) (fuel : Nat) (hf : v.unwrapDepth ≤ fuel) :
    ∃ r b, ValueToInterface fuel v = .ok (r, b) ∧
      (b = false ↔
        (∀ h ∈ v.unwrapChain v.unwrapDepth, convertible h = false) ∧
          isScalarKind (v.terminal v.unwrapDepth).Kind = false) ∧
      (b = false → r = .nil) := by
  cases v with
  | invalid =>
    exact ⟨.nil, false, ValueToInterface_invalid fuel,
      by simp [Value.unwrapDepth, Value.unwrapChain, Value.terminal, convertible,
        Value.IsValid, Value.Kind, isScalarKind], fun _ => rfl⟩
  | valid x ro =>
    cases ro with
    | false =>
      obtain ⟨i, hi, _⟩ := Value.Interface_valid x
      refine ⟨i, true, by rw [ValueToInterface_generic, hi]; rfl, ?_, by simp⟩
      constructor
      · intro h; cases h
      · rintro ⟨hall, _⟩
        have hc := hall _ (Value.mem_unwrapChain _ (Value.valid x false))
        simp [convertible, Value.IsValid, Value.CanInterface] at hc
    | true =>
      obtain ⟨r, b, h1, h2, h3⟩ := ValueToInterface_readonly_flag x fuel hf
      refine ⟨r, b, h1, ?_, h3⟩
      constructor
      · intro hb
        exact ⟨fun h hm => Value.unwrapChain_readonly _ x h hm, h2.1 hb⟩
      · rintro ⟨_, ht⟩
        exact h2.2 ht

/-- Witness of C12: a read-only pointer to an interface holding a struct. -/
theorem ValueToInterface_false_iff_witness :
    (Value.valid (.ptr (.defined 1) (.iface (.defined 2) (.other (.defined 3) .Struct)))
        true).unwrapDepth ≤ 2 ∧
      ∃ r b, ValueToInterface 2
          (.valid (.ptr (.defined 1) (.iface (.defined 2) (.other (.defined 3) .Struct)))
            true) = .ok (r, b) ∧
        (b = false ↔
          (∀ h ∈ (Value.valid
              (.ptr (.defined 1) (.iface (.defined 2) (.other (.defined 3) .Struct)))
                true).unwrapChain
              (Value.valid
                (.ptr (.defined 1) (.iface (.defined 2) (.other (.defined 3) .Struct)))
                  true).unwrapDepth,
                convertible h = false) ∧
            isScalarKind ((Value.valid
              (.ptr (.defined 1) (.iface (.defined 2) (.other (.defined 3) .Struct)))
                true).terminal
              (Value.valid
                (.ptr (.defined 1) (.iface (.defined 2) (.other (.defined 3) .Struct)))
                  true).unwrapDepth).Kind = false) ∧
        (b = false → r = .nil) :=
  ⟨by decide,
    ValueToInterface_false_iff
      (.valid (.ptr (.defined 1) (.iface (.defined 2) (.other (.defined 3) .Struct))) true)
      2 (by decide)⟩

/-! ## Theorems on the recursion of `ValueToInterface` -/

/-- C13, counterexample: on the handle `reflect.ValueOf` gives for a pointer to a
pointer to the integer 7, which permits generic conversion, `ValueToInterface`
returns the pointer to the pointer itself, not 7 as an `int64`. -/
theorem ValueToInterface_ptr_ptr_generic :
    ValueToInterface 2
        (ValueOf (.native (.ptr (.defined 0) (.ptr (.defined 1) (.int (.defined 2) .native 7)))))
        = .ok (.native (.ptr (.defined 0) (.ptr (.defined 1) (.int (.defined 2) .native 7))),
            true) ∧
      ValueToInterface 2
        (ValueOf (.native (.ptr (.defined 0) (.ptr (.defined 1) (.int (.defined 2) .native 7)))))
        ≠ .ok (.native (.int .int64 .w64 7), true) := by
  constructor
  · simp [ValueOf, ValueToInterface_generic, Value.Interface]
  · simp [ValueOf, ValueToInterface_generic, Value.Interface]

/-- C13, amended: on a read-only handle (no generic conversion) wrapping a pointer
to a pointer to the integer 7, `ValueToInterface` returns 7 as an `int64` with
`true` once allowed two recursive calls, and does not return with fewer; on the
same value under a handle that permits generic conversion it returns the pointer
to the pointer itself with `true`, with no recursive call. -/
theorem ValueToInterface_ptr_ptr_seven (t1 t2 t3 : TypeId) (w : IntWidth) (fuel : Nat) :
    ValueToInterface (fuel + 2) (.valid (.ptr t1 (.ptr t2 (.int t3 w 7))) true) =
        .ok (.native (.int .int64 .w64 7), true) ∧
      ValueToInterface 1 (.valid (.ptr t1 (.ptr t2 (.int t3 w 7))) true) = .timeout ∧
      ValueToInterface 0 (.valid (.ptr t1 (.ptr t2 (.int t3 w 7))) true) = .timeout ∧
      ValueToInterface 0 (.valid (.ptr t1 (.ptr t2 (.int t3 w 7))) false) =
        .ok (.native (.ptr t1 (.ptr t2 (.int t3 w 7))), true) := by
  have h7 : toInt64 7 = 7 := by decide
  refine ⟨?_, ?_, ?_, ?_⟩
  · rw [ValueToInterface_ptr, ValueToInterface_ptr, ValueToInterface_int, h7]
  · rw [ValueToInterface_ptr]
    exact ValueToInterface_zero_unwrap _ (by simp [Val.unwrapDepth])
  · exact ValueToInterface_zero_unwrap _ (by simp [Val.unwrapDepth])
  · simp [ValueToInterface_generic, Value.Interface]

/-- With enough fuel the result of `ValueToInterface` on a read-only handle does
not depend on the fuel. -/
theorem ValueToInterface_fuel_readonly :
    ∀ (x : Val) (fuel : Nat), x.unwrapDepth ≤ fuel →
      ValueToInterface fuel (.valid x true) =
        ValueToInterface x.unwrapDepth (.valid x true) := by
  intro x
  induction x with
  | ptr t y ih =>
    intro fuel hf
    cases fuel with
    | zero => simp [Val.unwrapDepth] at hf
    | succ f =>
      rw [ValueToInterface_ptr, Val.unwrapDepth, ValueToInterface_ptr]
      exact ih f (by simpa [Val.unwrapDepth] using hf)
  | iface t y ih =>
    intro fuel hf
    cases fuel with
    | zero => simp [Val.unwrapDepth] at hf
    | succ f =>
      rw [ValueToInterface_iface, Val.unwrapDepth, ValueToInterface_iface]
      exact ih f (by simpa [Val.unwrapDepth] using hf)
  | nilPtr t =>
    intro fuel hf
    cases fuel with
    | zero => simp [Val.unwrapDepth] at hf
    | succ f => rw [ValueToInterface_nilPtr, Val.unwrapDepth, ValueToInterface_nilPtr]
  | nilIface t =>
    intro fuel hf
    cases fuel with
    | zero => simp [Val.unwrapDepth] at hf
    | succ f => rw [ValueToInterface_nilIface, Val.unwrapDepth, ValueToInterface_nilIface]
  | other t k => intro fuel _; rw [ValueToInterface_other, ValueToInterface_other]
  | bool t b => intro fuel _; rw [ValueToInterface_bool, ValueToInterface_bool]
  | int t w n => intro fuel _; rw [ValueToInterface_int, ValueToInterface_int]
  | uint t w n => intro fuel _; rw [ValueToInterface_uint, ValueToInterface_uint]
  | float t w f => intro fuel _; rw [ValueToInterface_float, ValueToInterface_float]
  | complex t w re im =>
    intro fuel _; rw [ValueToInterface_complex, ValueToInterface_complex]
  | str t s => intro fuel _; rw [ValueToInterface_str, ValueToInterface_str]

/-- With enough fuel the result of `ValueToInterface` does not depend on the
fuel. -/
theorem ValueToInterface_fuel (v : Value) (fuel : Nat) (hf : v.unwrapDepth ≤ fuel) :
    ValueToInterface fuel v = ValueToInterface v.unwrapDepth v := by
  cases v with
  | invalid => rw [ValueToInterface_invalid, ValueToInterface_invalid]
  | valid x ro =>
    cases ro with
    | false => rw [ValueToInterface_generic, ValueToInterface_generic]
    | true => exact ValueToInterface_fuel_readonly x fuel hf

/-- A recursive call of `ValueToInterface` is made on the element of the handle,
which has one layer less. -/
theorem ValueToInterface_unwrap_step (v e : Value) (hc : convertible v = false)
    (he : v.Elem = .ok e) :
    e.unwrapDepth + 1 = v.unwrapDepth ∧
      ∀ fuel : Nat, ValueToInterface (fuel + 1) v = ValueToInterface fuel e := by
  cases v with
  | invalid => simp [Value.Elem] at he
  | valid x ro =>
    cases ro with
    | false => simp [convertible, Value.IsValid, Value.CanInterface] at hc
    | true =>
      cases x with
      | ptr t y =>
        simp only [Value.Elem, Outcome.ok.injEq] at he
        subst he
        exact ⟨rfl, fun fuel => ValueToInterface_ptr fuel t y⟩
      | iface t y =>
        simp only [Value.Elem, Outcome.ok.injEq] at he
        subst he
        exact ⟨rfl, fun fuel => ValueToInterface_iface fuel t y⟩
      | nilPtr t =>
        simp only [Value.Elem, Outcome.ok.injEq] at he
        subst he
        exact ⟨rfl, fun fuel => by rw [ValueToInterface_nilPtr, ValueToInterface_invalid]⟩
      | nilIface t =>
        simp only [Value.Elem, Outcome.ok.injEq] at he
        subst he
        exact ⟨rfl, fun fuel => by rw [ValueToInterface_nilIface, ValueToInterface_invalid]⟩
      | _ => simp [Value.Elem] at he

/-- C14: `ValueToInterface` terminates on every handle of a finite value: allowed
as many recursive calls as there are pointer and interface layers around the
terminal value, it returns, with the same result for any larger allowance; and
each recursive call is made on the element of the handle, which has exactly one
layer less. -/
theorem ValueToInterface_terminates (v : Value) :
    (∃ r, ∀ fuel : Nat, v.unwrapDepth ≤ fuel → ValueToInterface fuel v = .ok r) ∧
      (∀ e : Value, convertible v = false → v.Elem = .ok e →
        e.unwrapDepth + 1 = v.unwrapDepth ∧
          ∀ fuel : Nat, ValueToInterface (fuel + 1) v = ValueToInterface fuel e) := by
  constructor
  · have hret : ∃ r, ValueToInterface v.unwrapDepth v = .ok r := by
      cases v with
      | invalid => exact ⟨_, ValueToInterface_invalid _⟩
      | valid x ro => exact (ValueToInterface_returns ro x x.unwrapDepth).2 (Nat.le_refl _)
    obtain ⟨r, hr⟩ := hret
    exact ⟨r, fun fuel hf => by rw [ValueToInterface_fuel v fuel hf, hr]⟩
  · intro e hc he
    exact ValueToInterface_unwrap_step v e hc he

/-! ## Theorems relating the inputs and the two forms of the resolver -/

/-- The type loop on a type that is `T` under `n` pointer layers, `T` not a
pointer type, ends on `T`. -/
theorem originTypeLoop_wraps (U : TypeTable) (T : TypeId)
    (hT : (U.lookup T).Kind ≠ Kind.Ptr) (i : Option TypeId) (ik : Kind) :
    ∀ (n : Nat) (t : TypeId) (fuel : Nat), U.wraps n t T = true → n ≤ fuel →
      originTypeLoop U fuel
          { InputType := i, InputKind := ik, OriginType := some t,
            OriginKind := (U.lookup t).Kind } =
        .ok { InputType := i, InputKind := ik, OriginType := some T,
              OriginKind := (U.lookup T).Kind } := by
  intro n
  induction n with
  | zero =>
    intro t fuel hw _
    have ht : t = T := by simpa [TypeTable.wraps] using hw
    subst ht
    exact originTypeLoop_stop U fuel _ hT
  | succ m ih =>
    intro t fuel hw hf
    have hw2 : (U.lookup t).Kind = Kind.Ptr ∧ U.wraps m (U.lookup t).Elem T = true := by
      simpa [TypeTable.wraps] using hw
    cases fuel with
    | zero => simp at hf
    | succ f =>
      rw [originTypeLoop_step U f _ hw2.1]
      simp only [TypeElem, hw2.1, Outcome.bind_ok, TypeKind]
      exact ih (U.lookup t).Elem f hw2.2 (by simpa using hf)

/-- The kind of a type that is `T` under `n` pointer layers. -/
theorem TypeTable.wraps_Kind (U : TypeTable) (n : Nat) (t T : TypeId)
    (hw : U.wraps n t T = true) :
    (U.lookup t).Kind = if n = 0 then (U.lookup T).Kind else Kind.Ptr := by
  cases n with
  | zero =>
    have ht : t = T := by simpa [TypeTable.wraps] using hw
    simp [ht]
  | succ m =>
    have hw2 : (U.lookup t).Kind = Kind.Ptr ∧ U.wraps m (U.lookup t).Elem T = true := by
      simpa [TypeTable.wraps] using hw
    simp [hw2.1]

/-- C15: `OriginTypeAndKind` depends only on the type of its input: on a native
value `x`, on a handle of `x` and on the descriptor of the runtime type of `x`
the outcome is the same, and it is the same on any other value `y` of that type,
whatever the data of `x` and `y`. -/
theorem OriginTypeAndKind_type_only (U : TypeTable) (fuel : Nat) (x y box : Val)
    (ro : Bool) (hy : y.typ = x.typ) :
    OriginTypeAndKind U fuel (.handle (.valid x ro)) = OriginTypeAndKind U fuel (.native x) ∧
      OriginTypeAndKind U fuel (.rtype x.typ box) = OriginTypeAndKind U fuel (.native x) ∧
      OriginTypeAndKind U fuel (.native y) = OriginTypeAndKind U fuel (.native x) := by
  refine ⟨?_, ?_, ?_⟩
  · simp [OriginTypeAndKind, inputType, Value.Type, TypeOf]
  · simp [OriginTypeAndKind, inputType, TypeOf]
  · simp [OriginTypeAndKind, inputType, TypeOf, hy]

/-- Witness of C15: a nil and a non-nil pointer of the type `*T`, as a native
value, as a handle and as the type descriptor: all give the struct type `T`. -/
theorem OriginTypeAndKind_type_only_witness :
    (Val.ptr (.defined 0) (.other (.defined 1) .Struct)).typ = (Val.nilPtr (.defined 0)).typ ∧
      OriginTypeAndKind ptrStructTable 1 (.native (.nilPtr (.defined 0))) =
        .ok { InputType := some (.defined 0), InputKind := .Ptr,
              OriginType := some (.defined 1), OriginKind := .Struct } ∧
      OriginTypeAndKind ptrStructTable 1 (.handle (.valid (.nilPtr (.defined 0)) false)) =
        OriginTypeAndKind ptrStructTable 1 (.native (.nilPtr (.defined 0))) ∧
      OriginTypeAndKind ptrStructTable 1
          (.rtype (Val.nilPtr (.defined 0)).typ (.other (.defined 5) .Struct)) =
        OriginTypeAndKind ptrStructTable 1 (.native (.nilPtr (.defined 0))) ∧
      OriginTypeAndKind ptrStructTable 1
          (.native (.ptr (.defined 0) (.other (.defined 1) .Struct))) =
        OriginTypeAndKind ptrStructTable 1 (.native (.nilPtr (.defined 0))) :=
  ⟨rfl, by decide,
    OriginTypeAndKind_type_only ptrStructTable 1 (.nilPtr (.defined 0))
      (.ptr (.defined 0) (.other (.defined 1) .Struct)) (.other (.defined 5) .Struct)
      false rfl⟩

/-- C16: `OriginValueAndKind` on the handle `reflect.ValueOf` gives for a value
that is not itself a handle has the outcome it has on the value; and a handle
passed in is recorded as `InputValue` itself, with its kind as `InputKind`. -/
theorem OriginValueAndKind_handle (fuel : Nat) :
    (∀ value : Any, (∀ h : Value, value ≠ .handle h) →
        OriginValueAndKind fuel (.handle (ValueOf value)) = OriginValueAndKind fuel value) ∧
      (∀ (v : Value) (out : OriginValueAndKindOutput),
        OriginValueAndKind fuel (.handle v) = .ok out →
          out.InputValue = v ∧ out.InputKind = v.Kind) := by
  constructor
  · intro value hv
    cases value with
    | handle h => exact absurd rfl (hv h)
    | nil => rfl
    | rtype t box => rfl
    | nilRtype box => rfl
    | native x => rfl
  · intro v out h
    obtain ⟨_, h1, h2⟩ := originValueLoop_ok fuel _ out h
    exact ⟨h1, h2⟩

/-- C17: on the descriptor of a type that is `T` under `n` pointer layers, `T`
not a pointer type, `OriginTypeAndKind` returns (once the loop is allowed `n`
iterations) `OriginType` `T` and `OriginKind` the kind of `T`, with `InputType`
the descriptor passed and `InputKind` `Ptr` when `n > 0` and the kind of `T` when
`n = 0`. -/
theorem OriginTypeAndKind_wraps (U : TypeTable) (n : Nat) (t T : TypeId) (box : Val)
    (fuel : Nat) (hT : (U.lookup T).Kind ≠ Kind.Ptr) (hw : U.wraps n t T = true)
    (hf : n ≤ fuel) :
    OriginTypeAndKind U fuel (.rtype t box) =
      .ok { InputType := some t,
            InputKind := if n = 0 then (U.lookup T).Kind else Kind.Ptr,
            OriginType := some T, OriginKind := (U.lookup T).Kind } := by
  have hloop := originTypeLoop_wraps U T hT (some t) (U.lookup t).Kind n t fuel hw hf
  rw [← TypeTable.wraps_Kind U n t T hw]
  simpa [OriginTypeAndKind, inputType, TypeKind] using hloop

/-- Witness of C17: the descriptor of `**int`. -/
theorem OriginTypeAndKind_wraps_witness :
    (ptrPtrIntTable.lookup (.defined 2)).Kind ≠ Kind.Ptr ∧
      ptrPtrIntTable.wraps 2 (.defined 0) (.defined 2) = true ∧ 2 ≤ 2 ∧
      OriginTypeAndKind ptrPtrIntTable 2
          (.rtype (.defined 0) (.other (.defined 5) .Struct)) =
        .ok { InputType := some (.defined 0),
              InputKind := if 2 = 0 then (ptrPtrIntTable.lookup (.defined 2)).Kind
                else Kind.Ptr,
              OriginType := some (.defined 2),
              OriginKind := (ptrPtrIntTable.lookup (.defined 2)).Kind } :=
  ⟨by decide, by decide, by decide,
    OriginTypeAndKind_wraps ptrPtrIntTable 2 (.defined 0) (.defined 2)
      (.other (.defined 5) .Struct) 2 (by decide) (by decide) (by decide)⟩

/-! ## Theorems on unwrapping in `ValueToInterface` -/

/-- The conversion to `int64` of an `int64` is the identity. -/
theorem toInt64_idem (n : Int) : toInt64 (toInt64 n) = toInt64 n := by
  unfold toInt64
  omega

/-- The conversion to `uint64` of a `uint64` is the identity. -/
theorem toUint64_idem (n : Nat) : toUint64 (toUint64 n) = toUint64 n := by
  unfold toUint64
  omega

/-- Unwrapping the layers `ls` of a read-only handle takes one recursive call
each. -/
theorem ValueToInterface_wrapLayers (s : Val) (k : Nat) :
    ∀ ls : List Layer,
      ValueToInterface (ls.length + k) (.valid (Val.wrapLayers ls s) true) =
        ValueToInterface k (.valid s true) := by
  intro ls
  induction ls with
  | nil => simp [Val.wrapLayers]
  | cons l ls ih =>
    have hlen : (l :: ls).length + k = (ls.length + k) + 1 := by
      simp only [List.length_cons]; omega
    cases l with
    | ptr t => rw [hlen, Val.wrapLayers, ValueToInterface_ptr, ih]
    | iface t => rw [hlen, Val.wrapLayers, ValueToInterface_iface, ih]

/-- On a read-only handle of a scalar kind `ValueToInterface` returns, by the
decoder of the kind and whatever the fuel, a value with `true` whose
normalisation is that of the value held. -/
theorem ValueToInterface_decode (s : Val) (hs : isScalarKind s.Kind = true) :
    ∃ r, r.normalise = s.normalise ∧
      ∀ k : Nat, ValueToInterface k (.valid s true) = .ok (r, true) := by
  cases s with
  | bool t b => exact ⟨.native (.bool .bool b), rfl, fun k => ValueToInterface_bool k t b⟩
  | int t w n =>
    exact ⟨.native (.int .int64 .w64 (toInt64 n)),
      by simp [Any.normalise, Val.normalise, toInt64_idem],
      fun k => ValueToInterface_int k t w n⟩
  | uint t w n =>
    exact ⟨.native (.uint .uint64 .w64 (toUint64 n)),
      by simp [Any.normalise, Val.normalise, toUint64_idem],
      fun k => ValueToInterface_uint k t w n⟩
  | float t w f =>
    exact ⟨.native (.float .float64 .w64 f), rfl, fun k => ValueToInterface_float k t w f⟩
  | complex t w re im =>
    exact ⟨.native (.complex .complex128 .w128 re im), rfl,
      fun k => ValueToInterface_complex k t w re im⟩
  | str t z => exact ⟨.native (.str .string z), rfl, fun k => ValueToInterface_str k t z⟩
  | nilPtr t => simp [Val.Kind, isScalarKind] at hs
  | ptr t y => simp [Val.Kind, isScalarKind] at hs
  | nilIface t => simp [Val.Kind, isScalarKind] at hs
  | iface t y => simp [Val.Kind, isScalarKind] at hs
  | other t k => cases k <;> simp [Val.Kind, OtherKind.Kind, isScalarKind] at hs

/-- C18: on a handle of kind `Ptr` or `Interface` that does not permit generic
conversion, `ValueToInterface` has the outcome it has on the element of the
handle; hence on a read-only handle of a scalar `s` under any mix of pointer and
interface layers, once allowed one recursive call a layer, it returns with
`true` exactly what the decoder of the kind returns on the handle of `s`. -/
theorem ValueToInterface_unwrap_transparent :
    (∀ v : Value, (v.Kind = Kind.Ptr ∨ v.Kind = Kind.Interface) → convertible v = false →
        ∃ e, v.Elem = .ok e ∧
          ∀ fuel : Nat, v.unwrapDepth ≤ fuel →
            ValueToInterface fuel v = ValueToInterface fuel e) ∧
    (∀ (ls : List Layer) (s : Val) (fuel : Nat), isScalarKind s.Kind = true →
        ls.length ≤ fuel →
        ∃ r, ValueToInterface 0 (.valid s true) = .ok (r, true) ∧
          ValueToInterface fuel (.valid (Val.wrapLayers ls s) true) = .ok (r, true) ∧
          r.normalise = s.normalise) := by
  constructor
  · intro v hk hc
    have hne : v.Elem ≠ .fault := by
      rw [Ne, Value.Elem_fault_iff]
      rcases hk with h | h <;> simp [h]
    have hex : ∃ e, v.Elem = .ok e := by
      cases hv : v.Elem with
      | ok e => exact ⟨e, rfl⟩
      | fault => exact absurd hv hne
      | timeout =>
        cases v with
        | invalid => simp [Value.Elem] at hv
        | valid x ro => cases x <;> simp [Value.Elem] at hv
    obtain ⟨e, he⟩ := hex
    refine ⟨e, he, ?_⟩
    intro fuel hf
    obtain ⟨hd, hstep⟩ := ValueToInterface_unwrap_step v e hc he
    cases fuel with
    | zero => omega
    | succ f =>
      rw [hstep f, ValueToInterface_fuel e (f + 1) (by omega),
        ValueToInterface_fuel e f (by omega)]
  · intro ls s fuel hs hf
    obtain ⟨r, hn, hr⟩ := ValueToInterface_decode s hs
    refine ⟨r, hr 0, ?_, hn⟩
    obtain ⟨k, rfl⟩ : ∃ k, fuel = ls.length + k := ⟨fuel - ls.length, by omega⟩
    rw [ValueToInterface_wrapLayers, hr k]

/-- C20: on a read-only nil pointer or nil interface handle the element is the
zero handle and `ValueToInterface` returns `(nil, false)` after its one recursive
call; on a nil pointer handle that permits generic conversion it returns the
typed nil pointer itself with `true`, with no recursive call. -/
theorem ValueToInterface_nil_indirection (t : TypeId) (fuel : Nat) :
    (Value.valid (.nilPtr t) true).Elem = .ok .invalid ∧
      (Value.valid (.nilIface t) true).Elem = .ok .invalid ∧
      ValueToInterface (fuel + 1) (.valid (.nilPtr t) true) = .ok (.nil, false) ∧
      ValueToInterface (fuel + 1) (.valid (.nilIface t) true) = .ok (.nil, false) ∧
      ValueToInterface 0 (.valid (.nilPtr t) false) = .ok (.native (.nilPtr t), true) ∧
      ValueToInterface fuel (.valid (.nilPtr t) false) = .ok (.native (.nilPtr t), true) := by
  refine ⟨rfl, rfl, ValueToInterface_nilPtr fuel t, ValueToInterface_nilIface fuel t, ?_, ?_⟩
  · simp [ValueToInterface_generic, Value.Interface]
  · simp [ValueToInterface_generic, Value.Interface]

/-! ## The value form against the type form -/

/-- The kind of the type of a well-typed value is the kind of the value. -/
theorem Val.wellTyped_Kind (U : TypeTable) (x : Val) (h : x.wellTyped U = true) :
    (U.lookup x.typ).Kind = x.Kind := by
  cases x <;> simp [Val.wellTyped] at h <;> simp [Val.typ, Val.Kind, h]

/-- The type of a well-typed chain of pointers over `b` is the type of `b` under
as many pointer layers, and `b` is well typed. -/
theorem Val.wellTyped_wrapPtrs (U : TypeTable) (b : Val) :
    ∀ ts : List TypeId, (Val.wrapPtrs ts b).wellTyped U = true →
      U.wraps ts.length (Val.wrapPtrs ts b).typ b.typ = true ∧ b.wellTyped U = true := by
  intro ts
  induction ts with
  | nil =>
    intro h
    exact ⟨by simp [TypeTable.wraps], h⟩
  | cons t ts ih =>
    intro h
    have h3 : ((U.lookup t).Kind = Kind.Ptr ∧ (U.lookup t).Elem = (Val.wrapPtrs ts b).typ) ∧
        (Val.wrapPtrs ts b).wellTyped U = true := by
      simpa [Val.wellTyped] using h
    obtain ⟨hw, hb⟩ := ih h3.2
    refine ⟨?_, hb⟩
    simp only [Val.wrapPtrs_cons, Val.typ, List.length_cons, TypeTable.wraps, h3.1.1,
      decide_True, Bool.true_and]
    rw [h3.1.2]
    exact hw

/-- Pointer layers over pointer layers add up. -/
theorem TypeTable.wraps_add (U : TypeTable) (m : Nat) (T : TypeId) :
    ∀ (n : Nat) (t s : TypeId), U.wraps n t s = true → U.wraps m s T = true →
      U.wraps (n + m) t T = true := by
  intro n
  induction n with
  | zero =>
    intro t s h1 h2
    have hts : t = s := by simpa [TypeTable.wraps] using h1
    subst hts
    simpa using h2
  | succ k ih =>
    intro t s h1 h2
    have h1b : (U.lookup t).Kind = Kind.Ptr ∧ U.wraps k (U.lookup t).Elem s = true := by
      simpa [TypeTable.wraps] using h1
    have hrec := ih (U.lookup t).Elem s h1b.2 h2
    have hk : k + 1 + m = (k + m) + 1 := by omega
    rw [hk]
    simp [TypeTable.wraps, h1b.1, hrec]

/-- The loop of `OriginValueAndKind` on a chain of pointers that ends on a nil
pointer ends on the zero handle. -/
theorem originValueLoop_nilPtr (t : TypeId) (ro : Bool) (i : Value) (ik : Kind) :
    ∀ (ts : List TypeId) (fuel : Nat), ts.length + 1 ≤ fuel →
      originValueLoop fuel
          { InputValue := i, InputKind := ik,
            OriginValue := .valid (Val.wrapPtrs ts (.nilPtr t)) ro,
            OriginKind := (Val.wrapPtrs ts (.nilPtr t)).Kind } =
        .ok { InputValue := i, InputKind := ik, OriginValue := .invalid,
              OriginKind := .Invalid } := by
  intro ts
  induction ts with
  | nil =>
    intro fuel hf
    cases fuel with
    | zero => simp at hf
    | succ n =>
      rw [originValueLoop_step n _ (by simp [Val.Kind])]
      simp only [Val.wrapPtrs_nil, Value.Elem, Outcome.bind_ok, Value.Kind]
      exact originValueLoop_stop n _ (by simp)
  | cons t2 ts ih =>
    intro fuel hf
    cases fuel with
    | zero => simp at hf
    | succ n =>
      rw [originValueLoop_step n _ (by simp [Val.Kind])]
      simp only [Val.wrapPtrs_cons, Value.Elem, Outcome.bind_ok, Value.Kind]
      exact ih n (by simpa using hf)

/-- C19: on a well-typed native value that is non-nil pointer layers over a base
`b` that is not a pointer, the value form and the type form return the same
`OriginKind` (the kind of `b`), and the type of the `OriginValue` of the value
form is the `OriginType` of the type form; whereas on a well-typed chain of
pointers that ends on a nil pointer whose type is `T` under `m` pointer layers,
`T` not a pointer type, the value form returns `OriginKind` `Invalid` (on the
zero handle) while the type form still returns the kind of `T`. -/
theorem origin_forms_agree (U : TypeTable) (ts : List TypeId) (fuel : Nat) :
    (∀ b : Val, b.Kind ≠ Kind.Ptr → (Val.wrapPtrs ts b).wellTyped U = true →
        ts.length ≤ fuel →
        ∃ outv outt,
          OriginValueAndKind fuel (.native (Val.wrapPtrs ts b)) = .ok outv ∧
          OriginTypeAndKind U fuel (.native (Val.wrapPtrs ts b)) = .ok outt ∧
          outv.OriginKind = outt.OriginKind ∧ outv.OriginKind = b.Kind ∧
          ∃ ty, outv.OriginValue.Type = .ok ty ∧ outt.OriginType = some ty) ∧
    (∀ (t T : TypeId) (m : Nat), (U.lookup T).Kind ≠ Kind.Ptr →
        U.wraps m t T = true → (Val.wrapPtrs ts (.nilPtr t)).wellTyped U = true →
        ts.length + m ≤ fuel →
        ∃ outv outt,
          OriginValueAndKind fuel (.native (Val.wrapPtrs ts (.nilPtr t))) = .ok outv ∧
          OriginTypeAndKind U fuel (.native (Val.wrapPtrs ts (.nilPtr t))) = .ok outt ∧
          outv.OriginKind = Kind.Invalid ∧ outv.OriginValue = .invalid ∧
          outt.OriginKind = (U.lookup T).Kind ∧ outt.OriginType = some T) := by
  constructor
  · intro b hb hwt hf
    obtain ⟨hw, hbt⟩ := Val.wellTyped_wrapPtrs U b ts hwt
    have hbk := Val.wellTyped_Kind U b hbt
    have hT : (U.lookup b.typ).Kind ≠ Kind.Ptr := by rw [hbk]; exact hb
    have hv := originValueLoop_wrapPtrs b hb false
      (.valid (Val.wrapPtrs ts b) false) (Val.wrapPtrs ts b).Kind ts fuel hf
    have ht := originTypeLoop_wraps U b.typ hT (some (Val.wrapPtrs ts b).typ)
      (U.lookup (Val.wrapPtrs ts b).typ).Kind ts.length (Val.wrapPtrs ts b).typ fuel hw hf
    refine ⟨_,
      { InputType := some (Val.wrapPtrs ts b).typ,
        InputKind := (U.lookup (Val.wrapPtrs ts b).typ).Kind,
        OriginType := some b.typ, OriginKind := (U.lookup b.typ).Kind },
      hv, ?_, ?_, rfl, b.typ, rfl, rfl⟩
    · simpa [OriginTypeAndKind, inputType, TypeOf, TypeKind] using ht
    · exact hbk.symm
  · intro t T m hT hm hwt hf
    obtain ⟨hw, hnt⟩ := Val.wellTyped_wrapPtrs U (.nilPtr t) ts hwt
    have htk : (U.lookup t).Kind = Kind.Ptr := by simpa [Val.wellTyped] using hnt
    have hm1 : 1 ≤ m := by
      cases m with
      | zero =>
        have : t = T := by simpa [TypeTable.wraps] using hm
        subst this
        exact absurd htk hT
      | succ k => omega
    have hv := originValueLoop_nilPtr t false
      (.valid (Val.wrapPtrs ts (.nilPtr t)) false) (Val.wrapPtrs ts (.nilPtr t)).Kind
      ts fuel (by omega)
    have hall := TypeTable.wraps_add U m T ts.length _ _ hw hm
    have ht := originTypeLoop_wraps U T hT (some (Val.wrapPtrs ts (.nilPtr t)).typ)
      (U.lookup (Val.wrapPtrs ts (.nilPtr t)).typ).Kind (ts.length + m)
      (Val.wrapPtrs ts (.nilPtr t)).typ fuel hall hf
    refine ⟨_,
      { InputType := some (Val.wrapPtrs ts (.nilPtr t)).typ,
        InputKind := (U.lookup (Val.wrapPtrs ts (.nilPtr t)).typ).Kind,
        OriginType := some T, OriginKind := (U.lookup T).Kind },
      hv, ?_, rfl, rfl, rfl, rfl⟩
    simpa [OriginTypeAndKind, inputType, TypeOf, TypeKind] using ht

/-- Witness of C19: in the table of `**int`, a pointer to a pointer to an `int`,
and a pointer to a nil pointer to an `int`. -/
theorem origin_forms_agree_witness :
    (∃ outv outt,
        OriginValueAndKind 2
            (.native (Val.wrapPtrs [.defined 0, .defined 1] (.int (.defined 2) .native 7))) =
          .ok outv ∧
        OriginTypeAndKind ptrPtrIntTable 2
            (.native (Val.wrapPtrs [.defined 0, .defined 1] (.int (.defined 2) .native 7))) =
          .ok outt ∧
        outv.OriginKind = outt.OriginKind ∧
        outv.OriginKind = (Val.int (.defined 2) .native 7).Kind ∧
        ∃ ty, outv.OriginValue.Type = .ok ty ∧ outt.OriginType = some ty) ∧
      ∃ outv outt,
        OriginValueAndKind 2
            (.native (Val.wrapPtrs [.defined 0] (.nilPtr (.defined 1)))) = .ok outv ∧
        OriginTypeAndKind ptrPtrIntTable 2
            (.native (Val.wrapPtrs [.defined 0] (.nilPtr (.defined 1)))) = .ok outt ∧
        outv.OriginKind = Kind.Invalid ∧ outv.OriginValue = .invalid ∧
        outt.OriginKind = (ptrPtrIntTable.lookup (.defined 2)).Kind ∧
        outt.OriginType = some (.defined 2) :=
  ⟨(origin_forms_agree ptrPtrIntTable [.defined 0, .defined 1] 2).1
      (.int (.defined 2) .native 7) (by decide) (by decide) (by decide),
    (origin_forms_agree ptrPtrIntTable [.defined 0] 2).2 (.defined 1) (.defined 2) 1
      (by decide) (by decide) (by decide) (by decide)⟩

end Reflection
